import Mathlib

/-!
Verification of RiftTalk against its specification.

The file has two parts:
* shallow embeddings of the frontend JavaScript that ships under
  `src/static/js/link-discord.js` and the two comic-carousel variants
  (`src/unnamed/part_001`, `src/unnamed/part_002`);
* a model of the Match-to-Room Lifecycle Orchestrator, Lock Manager and
  Expiring State Store.  The server/shared Python implementing those
  components is not part of the published sources, so the model is built
  from the specification text (each such definition carries a
  `Modelled from the spec:` doc comment).

Definitions come first, all theorems afterwards.
-/

namespace RiftTalk

/-! ## Frontend: Discord ID validation (`link-discord.js`, `isValidDiscordId`) -/

/-- Embedding of `isValidDiscordId(id)` from `src/static/js/link-discord.js`:
`return /^\d+$/.test(id) && id.length >= 17 && id.length <= 20;`.
The regex `^\d+$` holds of a string made of one or more ASCII digits. -/
def isValidDiscordId (id : String) : Bool :=
  (decide (0 < id.length) && id.data.all (fun c => c.isDigit))
    && decide (17 ≤ id.length) && decide (id.length ≤ 20)

/-! ## Frontend: i18n tables and lookup (`link-discord.js`, `I18N`, `t`) -/

/-- The `en` language pack of the `I18N` object, transcribed from
`src/static/js/link-discord.js` (apostrophes written as `\x27`). -/
def I18Nen : List (String × String) := [
  ("page_title", "Discord Account Linking"),
  ("page_subtitle", "Link your Discord account with League of Legends for automatic voice channel connection during matches"),
  ("current_user", "Current User"),
  ("label_language", "Language"),
  ("toggle_theme", "Theme"),
  ("btn_oauth_link", "Link via Discord (recommended)"),
  ("btn_donate", "Support the project"),
  ("oauth_info", "This will securely link your account."),
  ("manual_discord_id_advanced", " Enter manual Discord ID (advanced)"),
  ("manual_discord_id_link", "Manual Discord ID Link"),
  ("label_discord_link", "Discord linking:"),
  ("label_discord_id", "Your Discord ID:"),
  ("ph_discord_user_id", "Enter your Discord User ID (numbers only)"),
  ("btn_save_discord_id", "Save Discord ID"),
  ("discord_id_needed", "Discord ID is needed to grant access to your team\x27s voice channel. Your ID will be stored securely."),
  ("linked_discord_account", "Linked Discord Account:"),
  ("match_status", "Match Status"),
  ("btn_refresh", "Refresh"),
  ("lbl_game_phase", "Game Phase"),
  ("lbl_summoner", "Summoner Name"),
  ("lbl_team", "Team"),
  ("lbl_connected", "Connected"),
  ("your_team_voice_channel", "Your Team\x27s Voice Channel"),
  ("lbl_channel_name", "Channel Name"),
  ("lbl_status", "Status"),
  ("btn_join_voice", "Join Voice Chat"),
  ("btn_copy_link", "Copy Link"),
  ("how_it_works", "How It Works"),
  ("need_help", "Need Help?"),
  ("support_troubleshooting", "Support & Troubleshooting"),
  ("enable_dev_mode", "Enable Discord Developer Mode"),
  ("copy_user_id", "Copy Your Discord User ID"),
  ("troubleshooting", "Troubleshooting"),
  ("troubleshoot_intro", "If you encounter issues, try these steps:"),
  ("troubleshoot_bot_perms", "Make sure Discord bot is online and has permissions"),
  ("troubleshoot_id_correct", "Check that your Discord ID is correct (numbers only)"),
  ("troubleshoot_waiting_room", "Ensure you are in the Waiting Room voice channel on Discord"),
  ("keep_open_note", "Keep this page open while playing League of Legends. The app will automatically update when match starts."),
  ("msg_copied", "Invite link copied to clipboard!"),
  ("msg_copy_failed", "Couldn\x27t copy the link. Please copy it manually."),
  ("msg_opening_discord", "Opening Discord invite..."),
  ("msg_oauth_open", "Opening Discord authorization..."),
  ("msg_invalid_id", "Enter a valid Discord User ID (digits only)."),
  ("msg_saved", "Discord ID saved."),
  ("msg_save_failed", "Couldn\x27t save Discord ID. Please try again."),
  ("doc_title", "Link Discord Account - LoL Voice Chat"),
  ("card_discord_linking", "Discord Account Linking"),
  ("btn_change_discord_id", "Change Discord ID"),
  ("loading_linking", "Linking account..."),
  ("btn_link_manual", "Link Discord Account (manual)"),
  ("btn_refresh_status", "Refresh Status"),
  ("voice_channel_prompt", "The match has started! Join your team\x27s voice channel:"),
  ("help_instructions", "Help & Instructions"),
  ("how_to_find_discord_id", "How to find Discord ID?"),
  ("find_discord_id_steps", "Open Discord → Settings → Advanced → Enable \"Developer Mode\" → Right-click on your avatar → \"Copy User ID\""),
  ("join_our_server", "Join our server"),
  ("make_sure_in_server", "Make sure you\x27re in"),
  ("our_discord_server", "Our Discord server"),
  ("important_to_know", "Important to know:"),
  ("note_change_id", "If you need to re-link Discord, click the \"Change\" button"),
  ("note_channels_created", "Voice channels are created automatically after the match starts"),
  ("note_auto_connected", "You will be automatically connected to your team\x27s channel"),
  ("step_1", "Link account"),
  ("step_2", "Launch League of Legends and join games"),
  ("step_3", "When the match starts, status updates automatically"),
  ("step_4", "Join your team\x27s voice channel!"),
  ("lbl_channel", "Channel:"),
  ("lbl_team_label", "Team:"),
  ("lbl_match", "Match:"),
  ("lbl_player", "Player"),
  ("lbl_id", "ID"),
  ("lbl_saved", "Saved"),
  ("btn_account_linked", "Account linked"),
  ("msg_enter_new_id", "Enter new Discord ID"),
  ("msg_match_status_error", "Could not check match status. Make sure League of Legends is running."),
  ("msg_match_started_ready", "✅ Match started! Your voice channel is ready."),
  ("msg_match_loading", "🔄 Match is loading... Voice channel will be available after match starts."),
  ("msg_champ_select", "🎯 Champion selection... Voice channel will be created after match starts."),
  ("msg_match_found_not_started", "⏳ Match found, but not started yet. Voice channel will be available after match starts."),
  ("msg_no_active_match", "❌ No active match found. Launch League of Legends and join a game."),
  ("msg_voice_ready", "🎉 Match started! Your team\x27s voice channel is ready. Join now!"),
  ("msg_already_linked", "✅ Discord account already linked: {id}"),
  ("msg_oauth_linked", "✅ Discord linked via OAuth: {id}"),
  ("server_user_found", "✅ User found on server"),
  ("server_user_not_found", "❌ User not found on server"),
  ("server_join_server", "Join server"),
  ("server_join_bot_server", "Please join the bot\x27s Discord server."),
  ("server_status_unknown", "⚠️ Could not check status"),
  ("msg_auth_failed", "Could not authenticate. Launch League of Legends and try again."),
  ("msg_oauth_timeout", "⏳ OAuth window was opened, but linking was not detected yet. If you finished authorization, click \"Refresh Status\"."),
  ("msg_oauth_start_failed", "Failed to start Discord OAuth."),
  ("msg_oauth_no_url", "No authorization URL returned."),
  ("msg_match_status_updated", "🔄 Match status updated"),
  ("msg_copied_short", "Copied!")]

/-- The `ru` language pack of the `I18N` object, transcribed from
`src/static/js/link-discord.js`. -/
def I18Nru : List (String × String) := [
  ("page_title", "Привязка Discord"),
  ("page_subtitle", "Привяжите Discord к League of Legends, чтобы приложение автоматически подключало вас к голосовому каналу во время матчей"),
  ("current_user", "Текущий пользователь"),
  ("label_language", "Язык"),
  ("toggle_theme", "Тема"),
  ("btn_oauth_link", "Привязать через Discord (рекомендуется)"),
  ("btn_donate", "Поддержать проект"),
  ("oauth_info", "Аккаунт будет безопасно привязан через авторизацию."),
  ("manual_discord_id_advanced", "Ввести Discord ID вручную"),
  ("manual_discord_id_link", "Привязка по Discord ID вручную"),
  ("label_discord_link", "Привязка Discord:"),
  ("label_discord_id", "Ваш Discord ID:"),
  ("ph_discord_user_id", "Введите User ID Discord (только цифры)"),
  ("btn_save_discord_id", "Сохранить Discord ID"),
  ("discord_id_needed", "Discord ID нужен, чтобы выдать доступ к голосовому каналу вашей команды. ID будет храниться безопасно."),
  ("linked_discord_account", "Привязанный аккаунт Discord:"),
  ("match_status", "Статус матча"),
  ("btn_refresh", "Обновить"),
  ("lbl_game_phase", "Фаза игры"),
  ("lbl_summoner", "Ник в LoL"),
  ("lbl_team", "Команда"),
  ("lbl_connected", "Подключено"),
  ("your_team_voice_channel", "Голосовой канал вашей команды"),
  ("lbl_channel_name", "Название канала"),
  ("lbl_status", "Статус"),
  ("btn_join_voice", "Зайти в голосовой чат"),
  ("btn_copy_link", "Скопировать ссылку"),
  ("how_it_works", "Как это работает"),
  ("need_help", "Нужна помощь?"),
  ("support_troubleshooting", "Поддержка и диагностика"),
  ("enable_dev_mode", "Включите режим разработчика в Discord"),
  ("copy_user_id", "Скопируйте ваш Discord User ID"),
  ("troubleshooting", "Диагностика"),
  ("troubleshoot_intro", "Если что-то не работает, попробуйте:"),
  ("troubleshoot_bot_perms", "Убедитесь, что бот онлайн и у него есть права"),
  ("troubleshoot_id_correct", "Проверьте, что Discord ID верный (только цифры)"),
  ("troubleshoot_waiting_room", "Убедитесь, что вы находитесь в голосовом канале Waiting Room"),
  ("keep_open_note", "Держите эту страницу открытой во время игры. Приложение автоматически обновит статус, когда матч начнётся."),
  ("msg_copied", "Ссылка-приглашение скопирована в буфер обмена!"),
  ("msg_copy_failed", "Не удалось скопировать ссылку. Скопируйте её вручную."),
  ("msg_opening_discord", "Открываю приглашение Discord..."),
  ("msg_oauth_open", "Открываю авторизацию Discord..."),
  ("msg_invalid_id", "Введите корректный Discord User ID (только цифры)."),
  ("msg_saved", "Discord ID успешно сохранён."),
  ("msg_save_failed", "Не удалось сохранить Discord ID. Попробуйте ещё раз."),
  ("doc_title", "Привязка Discord — LoL Voice Chat"),
  ("card_discord_linking", "Привязка Discord"),
  ("btn_change_discord_id", "Изменить Discord ID"),
  ("loading_linking", "Привязываю аккаунт..."),
  ("btn_link_manual", "Привязать Discord (вручную)"),
  ("btn_refresh_status", "Обновить статус"),
  ("voice_channel_prompt", "Матч начался! Подключайтесь к голосовому каналу вашей команды:"),
  ("help_instructions", "Помощь и инструкции"),
  ("how_to_find_discord_id", "Как найти Discord ID?"),
  ("find_discord_id_steps", "Откройте Discord → Настройки → Расширенные → включите «Режим разработчика» → ПКМ по аватару → «Скопировать ID пользователя»"),
  ("join_our_server", "Присоединяйтесь к серверу"),
  ("make_sure_in_server", "Убедитесь, что вы на"),
  ("our_discord_server", "нашем Discord-сервере"),
  ("important_to_know", "Важно знать:"),
  ("note_change_id", "Если нужно изменить Discord ID — нажмите кнопку «Изменить»"),
  ("note_channels_created", "Голосовые каналы создаются автоматически после старта матча"),
  ("note_auto_connected", "Вы будете автоматически подключены к каналу вашей команды"),
  ("step_1", "Привяжите аккаунт"),
  ("step_2", "Запустите League of Legends и начните матч"),
  ("step_3", "После старта матча обновите статус"),
  ("step_4", "Зайдите в голосовой канал команды!"),
  ("lbl_channel", "Канал:"),
  ("lbl_team_label", "Команда:"),
  ("lbl_match", "Матч:"),
  ("lbl_player", "Игрок"),
  ("lbl_id", "ID"),
  ("lbl_saved", "Сохранено"),
  ("btn_account_linked", "Аккаунт привязан"),
  ("msg_enter_new_id", "Введите новый Discord ID"),
  ("msg_match_status_error", "Не удалось проверить статус матча. Убедитесь, что League of Legends запущена."),
  ("msg_match_started_ready", "✅ Матч начался! Голосовой канал готов."),
  ("msg_match_loading", "🔄 Идёт загрузка... Голосовой канал появится после старта матча."),
  ("msg_champ_select", "🎯 Выбор чемпионов... Голосовой канал будет создан после старта матча."),
  ("msg_match_found_not_started", "⏳ Матч найден, но ещё не начался. Голосовой канал появится после старта матча."),
  ("msg_no_active_match", "❌ Активный матч не найден. Запустите League of Legends и начните игру."),
  ("msg_voice_ready", "🎉 Матч начался! Голосовой канал вашей команды готов. Подключайтесь!"),
  ("msg_already_linked", "✅ Discord уже привязан: {id}"),
  ("msg_oauth_linked", "✅ Discord привязан через OAuth: {id}"),
  ("server_user_found", "✅ Пользователь найден на сервере"),
  ("server_user_not_found", "❌ Пользователь не найден на сервере"),
  ("server_join_server", "Вступить на сервер"),
  ("server_join_bot_server", "Пожалуйста, вступите на Discord-сервер бота."),
  ("server_status_unknown", "⚠️ Не удалось проверить статус"),
  ("msg_auth_failed", "Не удалось авторизоваться. Запустите League of Legends и попробуйте ещё раз."),
  ("msg_oauth_timeout", "⏳ Окно авторизации открыто, но привязка ещё не обнаружена. Если вы завершили авторизацию, нажмите «Обновить статус»."),
  ("msg_oauth_start_failed", "Не удалось запустить OAuth Discord."),
  ("msg_oauth_no_url", "Сервер не вернул ссылку на авторизацию."),
  ("msg_match_status_updated", "🔄 Статус матча обновлён"),
  ("msg_copied_short", "Скопировано!")]

/-- A JavaScript value as far as the `t` lookup chain is concerned:
`undefined`, a string, or an inherited `Object.prototype` member (a
function, or the object behind the `__proto__` accessor), tagged by its
property name. -/
inductive JsVal where
  | undefined : JsVal
  | str : String → JsVal
  | protoMember : String → JsVal
deriving DecidableEq, Repr

/-- JavaScript truthiness on `JsVal`: `undefined` and the empty string
are falsy; every other string is truthy, and so is every inherited
`Object.prototype` member (functions and objects are always truthy). -/
def jsTruthy : JsVal → Bool
  | .undefined => false
  | .str s => decide (s ≠ "")
  | .protoMember _ => true

/-- The JavaScript `||` operator restricted to the values `t` handles:
returns the first operand when it is truthy, the second otherwise. -/
def jsOr (a b : JsVal) : JsVal :=
  if jsTruthy a then a else b

/-- The property names every plain object literal inherits from
`Object.prototype`: the standard methods plus the legacy accessor
properties.  A property read on a pack falls back to these when the
pack has no own property of that name. -/
def protoProps : List String :=
  ["constructor", "hasOwnProperty", "isPrototypeOf", "propertyIsEnumerable",
   "toLocaleString", "toString", "valueOf",
   "__defineGetter__", "__defineSetter__", "__lookupGetter__", "__lookupSetter__",
   "__proto__"]

/-- Property read `pack[key]` on a language pack, prototype chain
included: the stored string when the key is an own property, otherwise
the inherited `Object.prototype` member when the key names one,
otherwise `undefined`. -/
def packRead (pack : List (String × String)) (key : String) : JsVal :=
  match pack.find? (fun p => p.1 = key) with
  | some p => .str p.2
  | none => if key ∈ protoProps then .protoMember key else .undefined

/-- Embedding of `I18N[currentLang] || I18N.en`: the lookup of the
current pack in `t`.  `I18N` has exactly the own properties `en` and
`ru`; any other language name reads as `undefined` and falls back to
the English pack. -/
def currentPack (lang : String) : List (String × String) :=
  if lang = "en" then I18Nen else if lang = "ru" then I18Nru else I18Nen

/-- Embedding of `t(key)` from `src/static/js/link-discord.js`:
`const pack = I18N[currentLang] || I18N.en; return (pack && pack[key]) || I18N.en[key] || key;`
(`pack` is always a truthy object, so `pack && pack[key]` is `pack[key]`). -/
def tJs (lang key : String) : JsVal :=
  jsOr (packRead (currentPack lang) key) (jsOr (packRead I18Nen key) (.str key))

/-- The string `t` yields when its result is a string (which is the
case for every key either pack defines, in particular every key the UI
code passes); the result of `t` itself is never `undefined`. -/
def t (lang key : String) : String :=
  match tJs lang key with
  | .str s => s
  | _ => ""

/-! ## Frontend: match status UI (`link-discord.js`, `updateMatchStatusUI`) -/

/-- The `voice_channel` object of a match-status response, as read by
`displayVoiceChannelInfo` (`invite_url` may be absent/null). -/
structure VoiceChannel where
  invite_url : Option String
  channel_name : String
deriving DecidableEq, Repr

/-- A match-status object as read by `updateMatchStatusUI`:
`{in_progress, voice_channel, in_loading_screen, in_champ_select, match_id, team_name}`. -/
structure MatchInfo where
  in_progress : Bool
  voice_channel : Option VoiceChannel
  in_loading_screen : Bool
  in_champ_select : Bool
  match_id : Option String
  team_name : String
deriving DecidableEq, Repr

/-- The DOM state touched by `updateMatchStatusUI` and
`displayVoiceChannelInfo`: the relevant `style.display` values, text
nodes, the invite link and the `showMessage` banner. -/
structure UIState where
  matchStatusDisplay : String
  matchStatusText : String
  voiceChannelInfoDisplay : String
  voiceInviteHref : Option String
  channelNameText : String
  teamNameText : String
  matchIdText : Option String
  message : Option (String × String)
deriving DecidableEq, Repr

/-- JavaScript truthiness of an optional string field (`null`/absent and
`""` are falsy). -/
def optTruthy : Option String → Bool
  | none => false
  | some s => decide (s ≠ "")

/-- Embedding of `displayVoiceChannelInfo(matchInfo)`: only when
`matchInfo.voice_channel && matchInfo.voice_channel.invite_url` does it
fill the panel fields, set the panel display to `block` and show the
`msg_voice_ready` message; otherwise it changes nothing. -/
def displayVoiceChannelInfo (lang : String) (mi : MatchInfo) (ui : UIState) : UIState :=
  match mi.voice_channel with
  | some vc =>
    if optTruthy vc.invite_url then
      { ui with
        voiceInviteHref := vc.invite_url,
        channelNameText := vc.channel_name,
        teamNameText := mi.team_name,
        matchIdText := mi.match_id,
        voiceChannelInfoDisplay := "block",
        message := some (t lang "msg_voice_ready", "success") }
    else ui
  | none => ui

/-- Embedding of `updateMatchStatusUI(matchInfo)` from
`src/static/js/link-discord.js`: shows the match-status block, then
takes exactly one branch of the `if`/`else if` chain. -/
def updateMatchStatusUI (lang : String) (mi : MatchInfo) (ui : UIState) : UIState :=
  let ui := { ui with matchStatusDisplay := "block" }
  if mi.in_progress && mi.voice_channel.isSome then
    displayVoiceChannelInfo lang mi
      { ui with matchStatusText := t lang "msg_match_started_ready" }
  else if mi.in_loading_screen then
    { ui with matchStatusText := t lang "msg_match_loading", voiceChannelInfoDisplay := "none" }
  else if mi.in_champ_select then
    { ui with matchStatusText := t lang "msg_champ_select", voiceChannelInfoDisplay := "none" }
  else if optTruthy mi.match_id && !mi.in_progress then
    { ui with matchStatusText := t lang "msg_match_found_not_started", voiceChannelInfoDisplay := "none" }
  else
    { ui with matchStatusText := t lang "msg_no_active_match", voiceChannelInfoDisplay := "none" }

/-! ## Frontend: comic carousel navigation (`src/unnamed/part_001` and `part_002`) -/

/-- JavaScript `%` (remainder truncating toward zero) on integers. -/
def jsRem (a b : Int) : Int := Int.tmod a b

namespace Part001

/-- Embedding of `go(delta)` from `src/unnamed/part_001`:
`idx = (idx + delta + len) % len` where `len = images.length`.
The new index is returned instead of being assigned. -/
def go (len : Nat) (idx delta : Int) : Int :=
  jsRem (idx + delta + (len : Int)) (len : Int)

end Part001

namespace Part002

/-- Embedding of `go(delta)` from `src/unnamed/part_002`, textually the
same computation as in `part_001`. -/
def go (len : Nat) (idx delta : Int) : Int :=
  jsRem (idx + delta + (len : Int)) (len : Int)

end Part002

/-! ## Lifecycle Orchestrator model

The Match-to-Room Lifecycle Orchestrator, the Expiring State Store and
the Lock Manager live in the `server/` and `shared/` Python packages of
the repository, which are not part of the published sources; the model
below is built from the specification text (§3 data model, §4.2 lock
manager, §4.3 state machine, §5 concurrency).  Signals for one match are
serialized by the match lock, so concurrent arrivals are modelled as an
arbitrary interleaving processed sequentially; the `deleteOk` flags are
the environment's choice of whether an external `deleteRoom` call
succeeds, and a sweep's `due` oracle says which rooms have exceeded the
safety threshold. -/

/-- Modelled from the spec: match phase as carried by telemetry events and
MatchRecord (§3). -/
inductive Phase where
  | noPhase | champSelect | loading | inProgress | ended
deriving DecidableEq, Repr

/-- Modelled from the spec: a telemetry phase-signal event
`{player_id, match_id, phase, team_id}` (§6). -/
structure Event where
  player_id : String
  match_id : String
  phase : Phase
  team_id : String
deriving DecidableEq, Repr

/-- Modelled from the spec: PlayerSession
`{player_id, platform_user_id (nullable), current_match_id}` (§3). -/
structure PlayerSession where
  player_id : String
  platform_user_id : Option String
  current_match_id : Option String
deriving DecidableEq, Repr

/-- Modelled from the spec: MatchRecord
`{match_id, phase, per-team player lists}` (§3; `created_at` and TTLs are
not modelled, expiry being the sweep's `due` oracle). -/
structure MatchRecord where
  match_id : String
  phase : Phase
  teams : List (String × List String)
deriving DecidableEq, Repr

/-- Modelled from the spec: RoomRecord
`{room_id, match_id, team_id, external_channel_ref, member_set}` (§3). -/
structure RoomRecord where
  room_id : Nat
  match_id : String
  team_id : String
  external_channel_ref : Nat
  member_set : List String
deriving DecidableEq, Repr

/-- The (match_id, team_id) key of a RoomRecord; rooms are created
exactly once per such pair (§3). -/
def roomKey (r : RoomRecord) : String × String := (r.match_id, r.team_id)

/-- Modelled from the spec: the orchestrator-visible state: the expiring
store's records (sessions, matches, rooms, MatchRoomIndex) plus the
external platform's actual rooms (`ext`, pairs of channel ref and
(match, team)), a fresh-ref counter for the adapter's `createRoom`, and
a count of all external room creations ever performed. -/
structure OrchState where
  sessions : List PlayerSession
  matchRecords : List MatchRecord
  rooms : List RoomRecord
  index : List ((String × String) × Nat)
  ext : List (Nat × (String × String))
  nextRef : Nat
  created : Nat
deriving DecidableEq, Repr

/-- The empty initial state (an empty store is also what a store reset
produces, §4.1). -/
def initState : OrchState :=
  { sessions := [], matchRecords := [], rooms := [], index := [], ext := [],
    nextRef := 0, created := 0 }

/-- Insert a string into a list if it is not already present. -/
def insertNew (x : String) (xs : List String) : List String :=
  if x ∈ xs then xs else xs ++ [x]

/-- Modelled from the spec: update the signalling player's session:
`platform_user_id` from the Identity Directory lookup, and last-writer-wins
`current_match_id` (§3, §4.3 edge-case policies). -/
def updateSession (link : String → Option String) (e : Event) :
    List PlayerSession → List PlayerSession
  | [] => [⟨e.player_id, link e.player_id, some e.match_id⟩]
  | p :: ps =>
    if p.player_id = e.player_id then
      { p with platform_user_id := link e.player_id,
               current_match_id := some e.match_id } :: ps
    else p :: updateSession link e ps

/-- Add a player to a team's list inside a MatchRecord's team table,
creating the team entry when absent. -/
def addToTeam (tm p : String) : List (String × List String) → List (String × List String)
  | [] => [(tm, [p])]
  | tp :: tps =>
    if tp.1 = tm then (tp.1, insertNew p tp.2) :: tps
    else tp :: addToTeam tm p tps

/-- Modelled from the spec: MatchRecord bookkeeping for a signal: create
the record on the first signal for an unknown match, record the reported
phase (lock-free, last-write-wins, §5) and the player on their team. -/
def updateMatchRec (e : Event) : List MatchRecord → List MatchRecord
  | [] => [⟨e.match_id, e.phase, [(e.team_id, [e.player_id])]⟩]
  | m :: ms =>
    if m.match_id = e.match_id then
      { m with phase := e.phase, teams := addToTeam e.team_id e.player_id m.teams } :: ms
    else m :: updateMatchRec e ms

/-- The player list of team `tm` in a MatchRecord's team table. -/
def findTeam (tps : List (String × List String)) (tm : String) : List String :=
  match tps.find? (fun tp => tp.1 = tm) with
  | some tp => tp.2
  | none => []

/-- The players currently recorded on team `tm` of match `mid`. -/
def teamPlayers (ms : List MatchRecord) (mid tm : String) : List String :=
  match ms.find? (fun m => m.match_id = mid) with
  | some m => findTeam m.teams tm
  | none => []

/-- Modelled from the spec: MatchRoomIndex lookup for a (match, team)
pair (§3, `matchroom:{match_id}` keys; rooms and hence index entries are
per (match_id, team_id)). -/
def lookupIndex (s : OrchState) (mid tm : String) : Option Nat :=
  match s.index.find? (fun p => p.1 = (mid, tm)) with
  | some p => some p.2
  | none => none

/-- Modelled from the spec: add the signalling player to an existing
room's member_set if missing (§4.3 `Forming → Active`, idempotent path). -/
def addMember (rid : Nat) (p : String) (s : OrchState) : OrchState :=
  { s with rooms := s.rooms.map fun r =>
      if r.room_id = rid then { r with member_set := insertNew p r.member_set } else r }

/-- Modelled from the spec: create the team's room: call the adapter's
`createRoom` (a fresh external channel ref), persist the RoomRecord and
the index entry, and grant/connect every linked, currently-present team
player (§4.3 `Forming → Active`). -/
def createTeamRoom (link : String → Option String) (mid tm : String) (s : OrchState) : OrchState :=
  let ref := s.nextRef
  let members := (teamPlayers s.matchRecords mid tm).filter fun p => (link p).isSome
  { s with
    rooms := s.rooms ++ [⟨ref, mid, tm, ref, members⟩],
    index := s.index ++ [((mid, tm), ref)],
    ext := s.ext ++ [(ref, (mid, tm))],
    nextRef := ref + 1,
    created := s.created + 1 }

/-- Modelled from the spec: the room-mutation path of an `InProgress`
signal, run under the match lock: if the index already has the entry a
teammate's racing signal created, only add the signalling player when
linked; if it is absent and the team has at least one linked player,
create the room (§4.3; unlinked players do not count toward the
trigger, §4.3 edge-case policies). -/
def roomPath (link : String → Option String) (e : Event) (s : OrchState) : OrchState :=
  match lookupIndex s e.match_id e.team_id with
  | some rid =>
    if (link e.player_id).isSome then addMember rid e.player_id s else s
  | none =>
    if (teamPlayers s.matchRecords e.match_id e.team_id).any (fun p => (link p).isSome) then
      createTeamRoom link e.match_id e.team_id s
    else s

/-- Modelled from the spec: `Active → Ended` teardown under the match
lock: delete the external room, then the RoomRecord and the index entry;
if the external delete fails, every record is left in place and retried
by the background sweep (§4.3). -/
def teardown (mid tm : String) (deleteOk : Bool) (s : OrchState) : OrchState :=
  match lookupIndex s mid tm with
  | none => s
  | some _ =>
    if deleteOk then
      { s with
        rooms := s.rooms.filter fun r => !(roomKey r = (mid, tm) : Bool),
        index := s.index.filter fun p => !(p.1 = (mid, tm) : Bool),
        ext := s.ext.filter fun c => !(c.2 = (mid, tm) : Bool) }
    else s

/-- Modelled from the spec: handling of one phase signal: session and
MatchRecord bookkeeping always happen; `InProgress` runs the room
path and an end signal runs teardown, with `deleteOk` the outcome of
the external `deleteRoom` call (§4.3). -/
def handleSignal (link : String → Option String) (e : Event) (deleteOk : Bool)
    (s : OrchState) : OrchState :=
  let s1 := { s with sessions := updateSession link e s.sessions,
                     matchRecords := updateMatchRec e s.matchRecords }
  match e.phase with
  | .inProgress => roomPath link e s1
  | .ended => teardown e.match_id e.team_id deleteOk s1
  | _ => s1

/-- Modelled from the spec: the background sweep: every room the `due`
oracle reports past the safety threshold is torn down via the
`Active → Ended` path; `deleteOk` says which external deletes succeed,
and a failed delete leaves the records for the next pass (§4.3). -/
def sweepState (due deleteOk : String → String → Bool) (s : OrchState) : OrchState :=
  let doomed := fun (k : String × String) => due k.1 k.2 && deleteOk k.1 k.2
  { s with
    rooms := s.rooms.filter fun r => !doomed (roomKey r),
    index := s.index.filter fun p => !doomed p.1,
    ext := s.ext.filter fun c => !doomed c.2 }

/-- Modelled from the spec: one environment action: either a phase
signal (with the outcome of any external delete it performs) or a
background sweep pass (§5 scheduling model). -/
inductive Act where
  | signal (e : Event) (deleteOk : Bool)
  | sweep (due deleteOk : String → String → Bool)

/-- One orchestrator step. -/
def step (link : String → Option String) (s : OrchState) : Act → OrchState
  | .signal e ok => handleSignal link e ok s
  | .sweep due ok => sweepState due ok s

/-- Run a sequence of actions from the empty initial state; the states
`run link acts` for all `acts` are exactly the reachable states. -/
def run (link : String → Option String) (acts : List Act) : OrchState :=
  acts.foldl (step link) initState

/-- The (match, team) keys of the RoomRecords in store order. -/
def roomKeys (s : OrchState) : List (String × String) := s.rooms.map roomKey

/-- The (match, team) keys of the MatchRoomIndex entries in store order. -/
def indexKeys (s : OrchState) : List (String × String) := s.index.map (·.1)

/-- The (match, team) keys of the external platform's rooms. -/
def extKeys (s : OrchState) : List (String × String) := s.ext.map (·.2)

/-- The inductive invariant of the orchestrator model: MatchRoomIndex
entries and external platform rooms are aligned key-for-key with the
RoomRecords, room keys are unique (at most one non-torn-down room per
(match_id, team_id)), every member of a room is linked, and room ids are
below the fresh-ref counter. -/
def Inv (link : String → Option String) (s : OrchState) : Prop :=
  indexKeys s = roomKeys s ∧
  extKeys s = roomKeys s ∧
  (roomKeys s).Nodup ∧
  (∀ r ∈ s.rooms, ∀ p ∈ r.member_set, (link p).isSome = true) ∧
  (∀ r ∈ s.rooms, r.room_id < s.nextRef)

/-- Proof-auxiliary predicate for the idempotent-creation argument: no
room has been created yet for (mid, tm) from a fresh store, and every
player recorded so far on that team is unlinked. -/
def Astate (link : String → Option String) (mid tm : String) (s : OrchState) : Prop :=
  s.rooms = [] ∧ s.index = [] ∧ s.created = 0 ∧
    ∀ q ∈ teamPlayers s.matchRecords mid tm, (link q).isSome = false

/-- Proof-auxiliary predicate for the idempotent-creation argument:
exactly one external room has ever been created and exactly one
RoomRecord/index pair for (mid, tm) exists. -/
def Bstate (mid tm : String) (s : OrchState) : Prop :=
  s.created = 1 ∧ (∃ r, s.rooms = [r] ∧ roomKey r = (mid, tm)) ∧
    ∃ rid, s.index = [((mid, tm), rid)]

/-! ## Lock Manager model -/

/-- Modelled from the spec: LockRecord `{resource_key, holder_token, expiry}`
(§3). -/
structure LockRecord where
  resource_key : String
  holder_token : Nat
  expiry : Nat
deriving DecidableEq, Repr

/-- Modelled from the spec: lock-manager errors (§4.2). -/
inductive LockError where
  | lockBusy | lockLost
deriving DecidableEq, Repr

/-- Modelled from the spec: the store's `get` on the lock table: an
expired record behaves identically to a missing one (§4.1). -/
def storeGet (st : List LockRecord) (key : String) (now : Nat) : Option LockRecord :=
  match st.find? (fun r => r.resource_key = key) with
  | some r => if now < r.expiry then some r else none
  | none => none

/-- Write-or-replace of the lock record for a key (the store's
compare-and-swap write; the model is sequential, so the swap itself
always lands, §4.1). -/
def upsertLock (key : String) (tok expiry : Nat) : List LockRecord → List LockRecord
  | [] => [⟨key, tok, expiry⟩]
  | r :: rs =>
    if r.resource_key = key then ⟨key, tok, expiry⟩ :: rs
    else r :: upsertLock key tok expiry rs

/-- Modelled from the spec: `acquire(resourceKey, leaseDuration)` built
atop the store's compare-and-swap: it succeeds, writing a lock record
held by `tok` until `now + lease`, exactly when no unexpired lock with a
different token exists; otherwise it fails with LockBusy (§4.2). -/
def acquire (st : List LockRecord) (key : String) (tok lease now : Nat) :
    Except LockError (Nat × List LockRecord) :=
  match storeGet st key now with
  | some r =>
    if r.holder_token ≠ tok then .error .lockBusy
    else .ok (tok, upsertLock key tok (now + lease) st)
  | none => .ok (tok, upsertLock key tok (now + lease) st)

/-- Modelled from the spec: `release(resourceKey, token)` removes the
holder's own lock record (§4.2). -/
def release (st : List LockRecord) (key : String) (tok : Nat) : List LockRecord :=
  st.filter fun r => !(r.resource_key = key ∧ r.holder_token = tok : Bool)

/-- Modelled from the spec: `renew(resourceKey, token, leaseDuration)`
extends the holder's own unexpired lease and fails with LockLost
otherwise (§4.2). -/
def renew (st : List LockRecord) (key : String) (tok lease now : Nat) :
    Except LockError (List LockRecord) :=
  match storeGet st key now with
  | some r =>
    if r.holder_token = tok then .ok (upsertLock key tok (now + lease) st)
    else .error .lockLost
  | none => .error .lockLost

/-! ## Helper lemmas -/

theorem map_filter_eq {α β γ : Type} (f : α → γ) (g : β → γ) (q : γ → Bool) :
    ∀ (la : List α) (lb : List β), la.map f = lb.map g →
      (la.filter fun a => q (f a)).map f = (lb.filter fun b => q (g b)).map g := by
  intro la
  induction la with
  | nil =>
    intro lb h
    cases lb with
    | nil => rfl
    | cons b bs => simp at h
  | cons a as ih =>
    intro lb h
    cases lb with
    | nil => simp at h
    | cons b bs =>
      simp only [List.map_cons, List.cons.injEq] at h
      obtain ⟨h1, h2⟩ := h
      simp only [List.filter_cons, h1]
      cases hq : q (g b) with
      | true => simp [h1, ih bs h2]
      | false => simp [ih bs h2]

theorem map_filter_self {α γ : Type} (f : α → γ) (q : γ → Bool) :
    ∀ l : List α, (l.filter fun a => q (f a)).map f = (l.map f).filter q := by
  intro l
  induction l with
  | nil => rfl
  | cons a as ih =>
    simp only [List.filter_cons, List.map_cons, List.filter_cons]
    cases hq : q (f a) with
    | true => simp [ih]
    | false => simp [ih]

theorem map_eq_self {α : Type} (f : α → α) :
    ∀ l : List α, (∀ x ∈ l, f x = x) → l.map f = l := by
  intro l
  induction l with
  | nil => intro _; rfl
  | cons a as ih =>
    intro h
    simp only [List.map_cons, h a (by simp)]
    rw [ih fun x hx => h x (by simp [hx])]

theorem filter_key_length_le_one {γ : Type} [DecidableEq γ] (k : γ) :
    ∀ l : List γ, l.Nodup → (l.filter fun x => x = k).length ≤ 1 := by
  intro l
  induction l with
  | nil => intro _; simp
  | cons a as ih =>
    intro h
    have hnd := (List.nodup_cons.mp h).2
    have hna := (List.nodup_cons.mp h).1
    by_cases ha : a = k
    · subst ha
      have : (as.filter fun x => x = a) = [] := by
        rw [List.filter_eq_nil_iff]
        intro x hx
        simp only [decide_eq_true_eq]
        intro hxa
        exact hna (hxa ▸ hx)
      simp [List.filter_cons, this]
    · simpa [List.filter_cons, ha] using ih hnd

theorem find?_append_none {α : Type} (p : α → Bool) :
    ∀ l1 l2 : List α, l1.find? p = none → (l1 ++ l2).find? p = l2.find? p := by
  intro l1
  induction l1 with
  | nil => intro l2 _; rfl
  | cons a as ih =>
    intro l2 h
    rw [List.find?_cons] at h
    cases hp : p a with
    | true => simp [hp] at h
    | false =>
      rw [hp] at h
      simp only [List.cons_append, List.find?_cons, hp]
      exact ih l2 h

theorem insertNew_self (x : String) (xs : List String) : x ∈ insertNew x xs := by
  unfold insertNew
  by_cases h : x ∈ xs <;> simp [h]

theorem insertNew_idem (x : String) (xs : List String) :
    insertNew x (insertNew x xs) = insertNew x xs := by
  unfold insertNew
  by_cases h : x ∈ xs <;> simp [h]

theorem mem_insertNew {x y : String} {xs : List String} :
    y ∈ insertNew x xs → y ∈ xs ∨ y = x := by
  unfold insertNew
  by_cases h : x ∈ xs
  · simp only [h, if_true]
    exact Or.inl
  · simp only [h, if_false, List.mem_append, List.mem_singleton]
    exact id

/-! ## Theorems: C8, Discord ID validation -/

/-- C8: `isValidDiscordId(id)` returns true exactly when `id` is made of
decimal digits only and its length lies between 17 and 20; in
particular it is false on the empty string and on any string with a
non-digit character. -/
theorem isValidDiscordId_spec (id : String) :
    (isValidDiscordId id = true ↔
      ((∀ c ∈ id.data, c.isDigit = true) ∧ 17 ≤ id.length ∧ id.length ≤ 20)) ∧
    isValidDiscordId "" = false ∧
    (∀ c ∈ id.data, c.isDigit = false → isValidDiscordId id = false) := by
  have hiff : isValidDiscordId id = true ↔
      ((∀ c ∈ id.data, c.isDigit = true) ∧ 17 ≤ id.length ∧ id.length ≤ 20) := by
    unfold isValidDiscordId
    simp only [Bool.and_eq_true, decide_eq_true_eq, List.all_eq_true]
    constructor
    · rintro ⟨⟨⟨_, hall⟩, h17⟩, h20⟩
      exact ⟨hall, h17, h20⟩
    · rintro ⟨hall, h17, h20⟩
      exact ⟨⟨⟨by omega, hall⟩, h17⟩, h20⟩
  refine ⟨hiff, by decide, ?_⟩
  intro c hc hnd
  cases hv : isValidDiscordId id with
  | false => rfl
  | true =>
    have := (hiff.mp hv).1 c hc
    rw [hnd] at this
    exact absurd this (by simp)

/-- Witness for C8 at concrete inputs. -/
theorem isValidDiscordId_spec_witness :
    isValidDiscordId "12345678901234567" = true ∧ isValidDiscordId "123a5678901234567" = false :=
  ⟨(isValidDiscordId_spec "12345678901234567").1.mpr (by decide),
   (isValidDiscordId_spec "123a5678901234567").2.2 'a' (by decide) (by decide)⟩

/-! ## Theorems: C9, carousel navigation -/

/-- C9: the carousel's `go` keeps the frame index in range and wraps:
for `len ≥ 1`, `0 ≤ idx < len` and `delta ∈ {-1, +1}` the result
`(idx + delta + len) % len` lies in `[0, len)`, `go(-1)` from index 0
gives `len - 1`, `go(+1)` then `go(-1)` restores the index, and the two
source variants (`part_001` and `part_002`) compute identical indices. -/
theorem carousel_go_spec :
    (∀ (len : Nat) (idx delta : Int), Part001.go len idx delta = Part002.go len idx delta) ∧
    (∀ (len : Nat) (idx delta : Int), 1 ≤ len → 0 ≤ idx → idx < (len : Int) →
      (delta = -1 ∨ delta = 1) →
      0 ≤ Part001.go len idx delta ∧ Part001.go len idx delta < (len : Int)) ∧
    (∀ len : Nat, 1 ≤ len → Part001.go len 0 (-1) = (len : Int) - 1) ∧
    (∀ (len : Nat) (idx : Int), 1 ≤ len → 0 ≤ idx → idx < (len : Int) →
      Part001.go len (Part001.go len idx 1) (-1) = idx) := by
  have hlen : ∀ len : Nat, 1 ≤ len → (0 : Int) < (len : Int) := by
    intro len h
    exact_mod_cast h
  have htmod : ∀ (a : Int) (len : Nat), 0 ≤ a → Int.tmod a (len : Int) = a % (len : Int) := by
    intro a len ha
    exact Int.tmod_eq_emod ha (by positivity)
  refine ⟨fun _ _ _ => rfl, ?_, ?_, ?_⟩
  · intro len idx delta h1 h0 hlt hd
    have ha : 0 ≤ idx + delta + (len : Int) := by
      rcases hd with h | h <;> subst h <;> omega
    unfold Part001.go jsRem
    rw [htmod _ _ ha]
    have hpos := hlen len h1
    exact ⟨Int.emod_nonneg _ (by omega), Int.emod_lt_of_pos _ hpos⟩
  · intro len h1
    have hpos := hlen len h1
    unfold Part001.go jsRem
    have ha : (0 : Int) + -1 + (len : Int) = (len : Int) - 1 := by ring
    rw [ha, htmod _ _ (by omega)]
    exact Int.emod_eq_of_lt (by omega) (by omega)
  · intro len idx h1 h0 hlt
    have hpos := hlen len h1
    unfold Part001.go jsRem
    rw [htmod (idx + 1 + (len : Int)) len (by omega)]
    have hshift : idx + 1 + (len : Int) = (idx + 1) + (len : Int) * 1 := by ring
    rw [hshift, Int.add_mul_emod_self_left]
    by_cases hedge : idx + 1 < (len : Int)
    · rw [Int.emod_eq_of_lt (by omega) hedge]
      rw [htmod _ _ (by omega)]
      have h2 : idx + 1 + -1 + (len : Int) = idx + (len : Int) * 1 := by ring
      rw [h2, Int.add_mul_emod_self_left]
      exact Int.emod_eq_of_lt h0 hlt
    · have hidx : idx + 1 = (len : Int) := by omega
      rw [hidx, Int.emod_self]
      rw [htmod _ _ (by omega)]
      have h2 : (0 : Int) + -1 + (len : Int) = (len : Int) - 1 := by ring
      rw [h2, Int.emod_eq_of_lt (by omega) (by omega)]
      omega

/-- Witness for C9 at a concrete input (13 frames, wrap from 0 backwards). -/
theorem carousel_go_spec_witness :
    0 ≤ Part001.go 13 5 1 ∧ Part001.go 13 5 1 < (13 : Int) ∧ Part001.go 13 0 (-1) = 12 := by
  refine ⟨(carousel_go_spec.2.1 13 5 1 (by decide) (by decide) (by decide) (Or.inr rfl)).1,
          (carousel_go_spec.2.1 13 5 1 (by decide) (by decide) (by decide) (Or.inr rfl)).2,
          ?_⟩
  have h := carousel_go_spec.2.2.1 13 (by decide)
  simpa using h

/-! ## Theorems: C10, translation lookup totality -/

theorem I18Nen_vals_nonempty : ∀ p ∈ I18Nen, p.2 ≠ "" := by decide

theorem I18Nru_vals_nonempty : ∀ p ∈ I18Nru, p.2 ≠ "" := by decide

theorem currentPack_cases (lang : String) :
    currentPack lang = I18Nen ∨ currentPack lang = I18Nru := by
  unfold currentPack
  by_cases h1 : lang = "en"
  · simp [h1]
  · by_cases h2 : lang = "ru" <;> simp [h1, h2]

/-- C10 counterexample: the claim says a key neither pack defines comes
back as the key string itself, but the property read `pack[key]`
traverses the prototype chain: at the concrete key `"toString"` the
lookup yields the inherited, truthy `Object.prototype.toString`, which
`||` returns instead of the key fallback. -/
theorem t_fallback_counterexample :
    tJs "en" "toString" ≠ JsVal.str "toString" ∧
    tJs "en" "toString" = JsVal.protoMember "toString" := by
  decide

/-- C10 amended: the lookup chain of `t` never yields `undefined`: it
yields the current language pack's string when that pack defines the
key; otherwise, when the key names an inherited `Object.prototype`
member, that truthy inherited member (short-circuiting the English
fallback); otherwise the English pack's string when English defines the
key; otherwise the key string itself. -/
theorem t_total_fallback (lang key : String) :
    tJs lang key ≠ JsVal.undefined ∧
    (∀ v, (currentPack lang).find? (fun p => p.1 = key) = some v →
      tJs lang key = JsVal.str v.2) ∧
    ((currentPack lang).find? (fun p => p.1 = key) = none → key ∈ protoProps →
      tJs lang key = JsVal.protoMember key) ∧
    ((currentPack lang).find? (fun p => p.1 = key) = none → key ∉ protoProps →
      ∀ v, I18Nen.find? (fun p => p.1 = key) = some v → tJs lang key = JsVal.str v.2) ∧
    ((currentPack lang).find? (fun p => p.1 = key) = none → key ∉ protoProps →
      I18Nen.find? (fun p => p.1 = key) = none → tJs lang key = JsVal.str key) := by
  have hne : ∀ p ∈ currentPack lang, p.2 ≠ "" := by
    rcases currentPack_cases lang with h | h
    · rw [h]; exact I18Nen_vals_nonempty
    · rw [h]; exact I18Nru_vals_nonempty
  cases hfind : (currentPack lang).find? (fun p => p.1 = key) with
  | some v =>
    have hv : v.2 ≠ "" := hne v (List.mem_of_find?_eq_some hfind)
    have htj : tJs lang key = JsVal.str v.2 := by
      simp [tJs, jsOr, packRead, jsTruthy, hfind, hv]
    refine ⟨by simp [htj], ?_, ?_, ?_, ?_⟩
    · intro v' hv'
      cases hv'
      exact htj
    · intro hnone; cases hnone
    · intro hnone; cases hnone
    · intro hnone; cases hnone
  | none =>
    by_cases hproto : key ∈ protoProps
    · have htj : tJs lang key = JsVal.protoMember key := by
        simp [tJs, jsOr, packRead, jsTruthy, hfind, hproto]
      refine ⟨by simp [htj], ?_, ?_, ?_, ?_⟩
      · intro v' hv'; cases hv'
      · intro _ _; exact htj
      · intro _ hnp; exact absurd hproto hnp
      · intro _ hnp; exact absurd hproto hnp
    · cases hen : I18Nen.find? (fun p => p.1 = key) with
      | some w =>
        have hw : w.2 ≠ "" := I18Nen_vals_nonempty w (List.mem_of_find?_eq_some hen)
        have htj : tJs lang key = JsVal.str w.2 := by
          simp [tJs, jsOr, packRead, jsTruthy, hfind, hen, hproto, hw]
        refine ⟨by simp [htj], ?_, ?_, ?_, ?_⟩
        · intro v' hv'; cases hv'
        · intro _ hp; exact absurd hp hproto
        · intro _ _ v' hv'
          cases hv'
          exact htj
        · intro _ _ hnone; cases hnone
      | none =>
        have htj : tJs lang key = JsVal.str key := by
          simp [tJs, jsOr, packRead, jsTruthy, hfind, hen, hproto]
        refine ⟨by simp [htj], ?_, ?_, ?_, ?_⟩
        · intro v' hv'; cases hv'
        · intro _ hp; exact absurd hp hproto
        · intro _ _ v' hv'; cases hv'
        · intro _ _ _; exact htj

/-- Witness for C10 (amended): a defined Russian key, the inherited
`valueOf` member under English, and the key fallback for a key in
neither pack nor the prototype, under an unknown language. -/
theorem t_total_fallback_witness :
    tJs "ru" "page_title" = JsVal.str "Привязка Discord" ∧
    tJs "en" "valueOf" = JsVal.protoMember "valueOf" ∧
    tJs "de" "missing_key" = JsVal.str "missing_key" :=
  ⟨(t_total_fallback "ru" "page_title").2.1 ("page_title", "Привязка Discord") (by decide),
   (t_total_fallback "en" "valueOf").2.2.1 (by decide) (by decide),
   (t_total_fallback "de" "missing_key").2.2.2.2 (by decide) (by decide) (by decide)⟩

/-! ## Theorems: C7, match-status UI rendering -/

/-- C7 counterexample: with `in_progress` true and a non-null
`voice_channel` whose `invite_url` is null, `updateMatchStatusUI` takes
the started branch but `displayVoiceChannelInfo` leaves the panel
hidden, so "panel shown iff in_progress and non-null voice_channel"
fails at this concrete input. -/
theorem updateMatchStatusUI_iff_counterexample :
    ¬ (((updateMatchStatusUI "en"
          { in_progress := true,
            voice_channel := some { invite_url := none, channel_name := "ch" },
            in_loading_screen := false, in_champ_select := false,
            match_id := some "M1", team_name := "blue" }
          { matchStatusDisplay := "none", matchStatusText := "",
            voiceChannelInfoDisplay := "none", voiceInviteHref := none,
            channelNameText := "", teamNameText := "", matchIdText := none,
            message := none }).voiceChannelInfoDisplay = "block") ↔
        ((true : Bool) = true ∧
          (some { invite_url := none, channel_name := "ch" } : Option VoiceChannel).isSome = true)) := by
  decide

/-- C7 amended: `updateMatchStatusUI` always shows the status block and
takes exactly one branch, with a phase-specific message; the
voice-channel panel is set shown exactly when `in_progress` holds and
the non-null `voice_channel` has a truthy `invite_url`, with the
started message shown; when `in_progress` or the channel is missing the
panel is hidden; when `in_progress` holds and the channel is present
but `invite_url` is falsy, the started message is still shown while the
panel's visibility is left unchanged. -/
theorem updateMatchStatusUI_amended (lang : String) (mi : MatchInfo) (ui : UIState) :
    ((updateMatchStatusUI lang mi ui).matchStatusDisplay = "block") ∧
    (∀ vc, mi.in_progress = true → mi.voice_channel = some vc → optTruthy vc.invite_url = true →
      (updateMatchStatusUI lang mi ui).voiceChannelInfoDisplay = "block" ∧
      (updateMatchStatusUI lang mi ui).matchStatusText = t lang "msg_match_started_ready") ∧
    (¬ (mi.in_progress = true ∧ mi.voice_channel.isSome = true) →
      (updateMatchStatusUI lang mi ui).voiceChannelInfoDisplay = "none") ∧
    (∀ vc, mi.in_progress = true → mi.voice_channel = some vc → optTruthy vc.invite_url = false →
      (updateMatchStatusUI lang mi ui).voiceChannelInfoDisplay = ui.voiceChannelInfoDisplay ∧
      (updateMatchStatusUI lang mi ui).matchStatusText = t lang "msg_match_started_ready") ∧
    ((updateMatchStatusUI lang mi ui).matchStatusText = t lang "msg_match_started_ready" ∨
     (updateMatchStatusUI lang mi ui).matchStatusText = t lang "msg_match_loading" ∨
     (updateMatchStatusUI lang mi ui).matchStatusText = t lang "msg_champ_select" ∨
     (updateMatchStatusUI lang mi ui).matchStatusText = t lang "msg_match_found_not_started" ∨
     (updateMatchStatusUI lang mi ui).matchStatusText = t lang "msg_no_active_match") := by
  cases hvc : mi.voice_channel with
  | none =>
    have hb : (mi.in_progress && mi.voice_channel.isSome) = false := by simp [hvc]
    cases hl : mi.in_loading_screen with
    | true =>
      refine ⟨?_, ?_, ?_, ?_, ?_⟩ <;>
        simp [updateMatchStatusUI, hb, hl, hvc]
    | false =>
      cases hc : mi.in_champ_select with
      | true =>
        refine ⟨?_, ?_, ?_, ?_, ?_⟩ <;>
          simp [updateMatchStatusUI, hb, hl, hc, hvc]
      | false =>
        cases hm : (optTruthy mi.match_id && !mi.in_progress) with
        | true =>
          refine ⟨?_, ?_, ?_, ?_, ?_⟩ <;>
            simp [updateMatchStatusUI, hb, hl, hc, hm, hvc]
        | false =>
          refine ⟨?_, ?_, ?_, ?_, ?_⟩ <;>
            simp [updateMatchStatusUI, hb, hl, hc, hm, hvc]
  | some vc =>
    cases hip : mi.in_progress with
    | false =>
      have hb : (mi.in_progress && mi.voice_channel.isSome) = false := by simp [hip]
      cases hl : mi.in_loading_screen with
      | true =>
        refine ⟨?_, ?_, ?_, ?_, ?_⟩ <;>
          simp [updateMatchStatusUI, hb, hl, hip, hvc]
      | false =>
        cases hc : mi.in_champ_select with
        | true =>
          refine ⟨?_, ?_, ?_, ?_, ?_⟩ <;>
            simp [updateMatchStatusUI, hb, hl, hc, hip, hvc]
        | false =>
          cases hm : optTruthy mi.match_id with
          | true =>
            refine ⟨?_, ?_, ?_, ?_, ?_⟩ <;>
              simp [updateMatchStatusUI, hb, hl, hc, hm, hip, hvc]
          | false =>
            refine ⟨?_, ?_, ?_, ?_, ?_⟩ <;>
              simp [updateMatchStatusUI, hb, hl, hc, hm, hip, hvc]
    | true =>
      have hb : (mi.in_progress && mi.voice_channel.isSome) = true := by simp [hip, hvc]
      cases hinv : optTruthy vc.invite_url with
      | true =>
        refine ⟨?_, ?_, ?_, ?_, ?_⟩ <;>
          simp [updateMatchStatusUI, displayVoiceChannelInfo, hb, hvc, hinv, hip]
      | false =>
        refine ⟨?_, ?_, ?_, ?_, ?_⟩ <;>
          simp [updateMatchStatusUI, displayVoiceChannelInfo, hb, hvc, hinv, hip]

/-- Witness for C7 (amended) at concrete inputs: the shown and the
hidden case. -/
theorem updateMatchStatusUI_amended_witness :
    (updateMatchStatusUI "en"
      { in_progress := true,
        voice_channel := some { invite_url := some "https://discord.gg/x", channel_name := "ch" },
        in_loading_screen := false, in_champ_select := false,
        match_id := some "M1", team_name := "blue" }
      { matchStatusDisplay := "none", matchStatusText := "",
        voiceChannelInfoDisplay := "none", voiceInviteHref := none,
        channelNameText := "", teamNameText := "", matchIdText := none,
        message := none }).voiceChannelInfoDisplay = "block" ∧
    (updateMatchStatusUI "en"
      { in_progress := false, voice_channel := none,
        in_loading_screen := false, in_champ_select := false,
        match_id := none, team_name := "" }
      { matchStatusDisplay := "none", matchStatusText := "",
        voiceChannelInfoDisplay := "block", voiceInviteHref := none,
        channelNameText := "", teamNameText := "", matchIdText := none,
        message := none }).voiceChannelInfoDisplay = "none" :=
  ⟨((updateMatchStatusUI_amended "en" _ _).2.1
      { invite_url := some "https://discord.gg/x", channel_name := "ch" }
      rfl rfl (by decide)).1,
   (updateMatchStatusUI_amended "en" _ _).2.2.1 (by decide)⟩

/-! ## Orchestrator step lemmas -/

theorem roomPath_sessions (link : String → Option String) (e : Event) (s : OrchState) :
    (roomPath link e s).sessions = s.sessions := by
  unfold roomPath
  cases lookupIndex s e.match_id e.team_id <;> dsimp only <;> split <;> rfl

theorem roomPath_matchRecords (link : String → Option String) (e : Event) (s : OrchState) :
    (roomPath link e s).matchRecords = s.matchRecords := by
  unfold roomPath
  cases lookupIndex s e.match_id e.team_id <;> dsimp only <;> split <;> rfl

theorem teardown_sessions (mid tm : String) (ok : Bool) (s : OrchState) :
    (teardown mid tm ok s).sessions = s.sessions := by
  unfold teardown
  cases lookupIndex s mid tm
  · rfl
  · dsimp only
    split <;> rfl

theorem teardown_matchRecords (mid tm : String) (ok : Bool) (s : OrchState) :
    (teardown mid tm ok s).matchRecords = s.matchRecords := by
  unfold teardown
  cases lookupIndex s mid tm
  · rfl
  · dsimp only
    split <;> rfl

theorem handleSignal_sessions (link : String → Option String) (e : Event) (ok : Bool)
    (s : OrchState) :
    (handleSignal link e ok s).sessions = updateSession link e s.sessions := by
  unfold handleSignal
  cases e.phase <;>
    simp only [roomPath_sessions, teardown_sessions]

theorem handleSignal_matchRecords (link : String → Option String) (e : Event) (ok : Bool)
    (s : OrchState) :
    (handleSignal link e ok s).matchRecords = updateMatchRec e s.matchRecords := by
  unfold handleSignal
  cases e.phase <;>
    simp only [roomPath_matchRecords, teardown_matchRecords]

theorem roomKey_if (rid : Nat) (p : String) (r : RoomRecord) :
    roomKey (if r.room_id = rid then { r with member_set := insertNew p r.member_set } else r)
      = roomKey r := by
  split <;> rfl

theorem roomId_if (rid : Nat) (p : String) (r : RoomRecord) :
    (if r.room_id = rid then { r with member_set := insertNew p r.member_set } else r).room_id
      = r.room_id := by
  split <;> rfl

theorem map_map_key {α γ : Type} (f : α → α) (g : α → γ) (hf : ∀ x, g (f x) = g x) :
    ∀ l : List α, (l.map f).map g = l.map g := by
  intro l
  induction l with
  | nil => rfl
  | cons a as ih => simp [hf, ih]

theorem roomKeys_addMember (rid : Nat) (p : String) (s : OrchState) :
    roomKeys (addMember rid p s) = roomKeys s := by
  unfold roomKeys addMember
  exact map_map_key _ roomKey (roomKey_if rid p) s.rooms

theorem lookupIndex_none_not_mem {s : OrchState} {mid tm : String}
    (h : lookupIndex s mid tm = none) : (mid, tm) ∉ indexKeys s := by
  unfold lookupIndex at h
  intro hmem
  obtain ⟨p, hp, hkey⟩ := List.mem_map.mp hmem
  cases hfind : s.index.find? (fun q => q.1 = (mid, tm)) with
  | some q => rw [hfind] at h; cases h
  | none =>
    have := List.find?_eq_none.mp hfind p hp
    simp [hkey] at this

theorem map_filter_eq2 {α β γ : Type} (f : α → γ) (g : β → γ) (pa : α → Bool) (pb : β → Bool)
    (hp : ∀ a b, f a = g b → pa a = pb b) :
    ∀ (la : List α) (lb : List β), la.map f = lb.map g →
      (la.filter pa).map f = (lb.filter pb).map g := by
  intro la
  induction la with
  | nil =>
    intro lb h
    cases lb with
    | nil => rfl
    | cons b bs => simp at h
  | cons a as ih =>
    intro lb h
    cases lb with
    | nil => simp at h
    | cons b bs =>
      simp only [List.map_cons, List.cons.injEq] at h
      obtain ⟨h1, h2⟩ := h
      simp only [List.filter_cons, hp a b h1]
      cases hq : pb b with
      | true => simp [h1, ih bs h2]
      | false => simp [ih bs h2]

/-- Index-room key alignment is preserved by every step. -/
theorem align_idx_step (link : String → Option String) (a : Act) (s : OrchState)
    (h : indexKeys s = roomKeys s) :
    indexKeys (step link s a) = roomKeys (step link s a) := by
  have h' : s.index.map (fun p => p.1) = s.rooms.map roomKey := h
  cases a with
  | sweep due ok =>
    show indexKeys (sweepState due ok s) = roomKeys (sweepState due ok s)
    unfold sweepState indexKeys roomKeys
    dsimp only
    refine map_filter_eq2 (fun p => p.1) roomKey _ _ ?_ s.index s.rooms h'
    intro a b hab
    have hab' : a.1 = roomKey b := hab
    rw [hab']
  | signal e ok =>
    show indexKeys (handleSignal link e ok s) = roomKeys (handleSignal link e ok s)
    unfold handleSignal
    cases e.phase <;> dsimp only
    case inProgress =>
      unfold roomPath
      cases hidx : lookupIndex
          { s with sessions := updateSession link e s.sessions,
                   matchRecords := updateMatchRec e s.matchRecords } e.match_id e.team_id with
      | some rid =>
        dsimp only
        split
        · rw [roomKeys_addMember]
          exact h
        · exact h
      | none =>
        dsimp only
        split
        · unfold createTeamRoom indexKeys roomKeys
          dsimp only
          rw [List.map_append, List.map_append]
          exact congrArg (· ++ [(e.match_id, e.team_id)]) h'
        · exact h
    case ended =>
      unfold teardown
      cases hidx : lookupIndex
          { s with sessions := updateSession link e s.sessions,
                   matchRecords := updateMatchRec e s.matchRecords } e.match_id e.team_id with
      | none => exact h
      | some rid =>
        dsimp only
        split
        · unfold indexKeys roomKeys
          dsimp only
          refine map_filter_eq2 (fun p => p.1) roomKey _ _ ?_ s.index s.rooms h'
          intro a b hab
          have hab' : a.1 = roomKey b := hab
          rw [hab']
        · exact h
    all_goals exact h

/-- External-room/room-record key alignment is preserved by every step. -/
theorem align_ext_step (link : String → Option String) (a : Act) (s : OrchState)
    (h : extKeys s = roomKeys s) :
    extKeys (step link s a) = roomKeys (step link s a) := by
  have h' : s.ext.map (fun c => c.2) = s.rooms.map roomKey := h
  cases a with
  | sweep due ok =>
    show extKeys (sweepState due ok s) = roomKeys (sweepState due ok s)
    unfold sweepState extKeys roomKeys
    dsimp only
    refine map_filter_eq2 (fun c => c.2) roomKey _ _ ?_ s.ext s.rooms h'
    intro a b hab
    have hab' : a.2 = roomKey b := hab
    rw [hab']
  | signal e ok =>
    show extKeys (handleSignal link e ok s) = roomKeys (handleSignal link e ok s)
    unfold handleSignal
    cases e.phase <;> dsimp only
    case inProgress =>
      unfold roomPath
      cases hidx : lookupIndex
          { s with sessions := updateSession link e s.sessions,
                   matchRecords := updateMatchRec e s.matchRecords } e.match_id e.team_id with
      | some rid =>
        dsimp only
        split
        · rw [roomKeys_addMember]
          exact h
        · exact h
      | none =>
        dsimp only
        split
        · unfold createTeamRoom extKeys roomKeys
          dsimp only
          rw [List.map_append, List.map_append]
          exact congrArg (· ++ [(e.match_id, e.team_id)]) h'
        · exact h
    case ended =>
      unfold teardown
      cases hidx : lookupIndex
          { s with sessions := updateSession link e s.sessions,
                   matchRecords := updateMatchRec e s.matchRecords } e.match_id e.team_id with
      | none => exact h
      | some rid =>
        dsimp only
        split
        · unfold extKeys roomKeys
          dsimp only
          refine map_filter_eq2 (fun c => c.2) roomKey _ _ ?_ s.ext s.rooms h'
          intro a b hab
          have hab' : a.2 = roomKey b := hab
          rw [hab']
        · exact h
    all_goals exact h

/-- Key uniqueness, member linkage and fresh room ids are preserved by
every step. -/
theorem rest_step (link : String → Option String) (a : Act) (s : OrchState)
    (hidx : indexKeys s = roomKeys s)
    (hnd : (roomKeys s).Nodup)
    (hmem : ∀ r ∈ s.rooms, ∀ p ∈ r.member_set, (link p).isSome = true)
    (hfresh : ∀ r ∈ s.rooms, r.room_id < s.nextRef) :
    (roomKeys (step link s a)).Nodup ∧
    (∀ r ∈ (step link s a).rooms, ∀ p ∈ r.member_set, (link p).isSome = true) ∧
    (∀ r ∈ (step link s a).rooms, r.room_id < (step link s a).nextRef) := by
  cases a with
  | sweep due ok =>
    show (roomKeys (sweepState due ok s)).Nodup ∧
      (∀ r ∈ (sweepState due ok s).rooms, ∀ p ∈ r.member_set, (link p).isSome = true) ∧
      (∀ r ∈ (sweepState due ok s).rooms, r.room_id < (sweepState due ok s).nextRef)
    refine ⟨?_, ?_, ?_⟩
    · exact ((List.filter_sublist s.rooms).map roomKey).nodup hnd
    · intro r hr
      exact hmem r (List.mem_filter.mp hr).1
    · intro r hr
      exact hfresh r (List.mem_filter.mp hr).1
  | signal e ok =>
    show (roomKeys (handleSignal link e ok s)).Nodup ∧
      (∀ r ∈ (handleSignal link e ok s).rooms, ∀ p ∈ r.member_set, (link p).isSome = true) ∧
      (∀ r ∈ (handleSignal link e ok s).rooms, r.room_id < (handleSignal link e ok s).nextRef)
    unfold handleSignal
    cases e.phase <;> dsimp only
    case inProgress =>
      unfold roomPath
      cases hlook : lookupIndex
          { s with sessions := updateSession link e s.sessions,
                   matchRecords := updateMatchRec e s.matchRecords } e.match_id e.team_id with
      | some rid =>
        dsimp only
        split
        case isTrue hlink =>
          refine ⟨?_, ?_, ?_⟩
          · rw [roomKeys_addMember]
            exact hnd
          · intro r' hr' p hp
            obtain ⟨r, hr, rfl⟩ := List.mem_map.mp hr'
            by_cases hid : r.room_id = rid
            · rw [if_pos hid] at hp
              dsimp only at hp
              rcases mem_insertNew hp with hold | hnew
              · exact hmem r hr p hold
              · rw [hnew]; exact hlink
            · rw [if_neg hid] at hp
              exact hmem r hr p hp
          · intro r' hr'
            obtain ⟨r, hr, rfl⟩ := List.mem_map.mp hr'
            rw [roomId_if]
            exact hfresh r hr
        case isFalse => exact ⟨hnd, hmem, hfresh⟩
      | none =>
        dsimp only
        split
        case isTrue htrig =>
          refine ⟨?_, ?_, ?_⟩
          · unfold createTeamRoom roomKeys
            dsimp only
            rw [List.map_append]
            refine List.nodup_append.mpr ⟨hnd, List.nodup_singleton _, ?_⟩
            intro x hx hx1
            have hx2 : x = (e.match_id, e.team_id) := by
              simpa using hx1
            have hni : (e.match_id, e.team_id) ∉ indexKeys s := lookupIndex_none_not_mem hlook
            rw [hidx] at hni
            exact hni (hx2 ▸ hx)
          · intro r hr p hp
            rcases List.mem_append.mp hr with hold | hnew
            · exact hmem r hold p hp
            · have : r = ⟨s.nextRef, e.match_id, e.team_id, s.nextRef,
                  (teamPlayers (updateMatchRec e s.matchRecords) e.match_id e.team_id).filter
                    fun q => (link q).isSome⟩ := by
                simpa using hnew
              rw [this] at hp
              exact (List.mem_filter.mp hp).2
          · intro r hr
            rcases List.mem_append.mp hr with hold | hnew
            · exact Nat.lt_succ_of_lt (hfresh r hold)
            · have : r = ⟨s.nextRef, e.match_id, e.team_id, s.nextRef,
                  (teamPlayers (updateMatchRec e s.matchRecords) e.match_id e.team_id).filter
                    fun q => (link q).isSome⟩ := by
                simpa using hnew
              rw [this]
              exact Nat.lt_succ_self _
        case isFalse => exact ⟨hnd, hmem, hfresh⟩
    case ended =>
      unfold teardown
      cases hlook : lookupIndex
          { s with sessions := updateSession link e s.sessions,
                   matchRecords := updateMatchRec e s.matchRecords } e.match_id e.team_id with
      | none => exact ⟨hnd, hmem, hfresh⟩
      | some rid =>
        dsimp only
        split
        case isTrue =>
          refine ⟨?_, ?_, ?_⟩
          · exact ((List.filter_sublist s.rooms).map roomKey).nodup hnd
          · intro r hr
            exact hmem r (List.mem_filter.mp hr).1
          · intro r hr
            exact hfresh r (List.mem_filter.mp hr).1
        case isFalse => exact ⟨hnd, hmem, hfresh⟩
    all_goals exact ⟨hnd, hmem, hfresh⟩

/-- The invariant holds in the initial state. -/
theorem inv_init (link : String → Option String) : Inv link initState :=
  ⟨rfl, rfl, List.nodup_nil, fun r hr => absurd hr (List.not_mem_nil r),
   fun r hr => absurd hr (List.not_mem_nil r)⟩

/-- One step preserves the invariant. -/
theorem inv_step (link : String → Option String) (a : Act) (s : OrchState)
    (h : Inv link s) : Inv link (step link s a) := by
  obtain ⟨h1, h2, h3, h4, h5⟩ := h
  obtain ⟨g3, g4, g5⟩ := rest_step link a s h1 h3 h4 h5
  exact ⟨align_idx_step link a s h1, align_ext_step link a s h2, g3, g4, g5⟩

theorem inv_foldl (link : String → Option String) :
    ∀ (acts : List Act) (s : OrchState), Inv link s → Inv link (acts.foldl (step link) s) := by
  intro acts
  induction acts with
  | nil => intro s h; exact h
  | cons a as ih =>
    intro s h
    exact ih (step link s a) (inv_step link a s h)

/-- The invariant holds in every reachable state. -/
theorem inv_run (link : String → Option String) (acts : List Act) :
    Inv link (run link acts) :=
  inv_foldl link acts initState (inv_init link)

/-! ## Match-record bookkeeping lemmas -/

theorem findTeam_addToTeam_self (tm p : String) :
    ∀ tps, findTeam (addToTeam tm p tps) tm = insertNew p (findTeam tps tm) := by
  intro tps
  induction tps with
  | nil => simp [findTeam, addToTeam, List.find?, insertNew]
  | cons tp tps ih =>
    by_cases h : tp.1 = tm
    · simp [findTeam, addToTeam, List.find?, h]
    · simp only [addToTeam, if_neg h]
      simp only [findTeam, List.find?] at ih ⊢
      rw [show (decide (tp.1 = tm)) = false by simp [h]]
      exact ih

theorem findTeam_addToTeam_other {tm tm' : String} (p : String) (h : tm' ≠ tm) :
    ∀ tps, findTeam (addToTeam tm p tps) tm' = findTeam tps tm' := by
  intro tps
  induction tps with
  | nil => simp [findTeam, addToTeam, List.find?, Ne.symm h]
  | cons tp tps ih =>
    by_cases htp : tp.1 = tm
    · have htp' : (tp.1 = tm') = False := by
        simp [htp, Ne.symm h]
      simp [findTeam, addToTeam, List.find?, if_pos htp, htp']
    · simp only [addToTeam, if_neg htp]
      simp only [findTeam, List.find?] at ih ⊢
      cases hd : decide (tp.1 = tm') <;> simp [hd, ih]

theorem teamPlayers_updateMatchRec_self (e : Event) :
    ∀ ms, teamPlayers (updateMatchRec e ms) e.match_id e.team_id =
      insertNew e.player_id (teamPlayers ms e.match_id e.team_id) := by
  intro ms
  induction ms with
  | nil =>
    simp [teamPlayers, updateMatchRec, List.find?, findTeam_addToTeam_self, findTeam,
      insertNew]
  | cons m ms ih =>
    by_cases h : m.match_id = e.match_id
    · simp only [updateMatchRec, if_pos h]
      simp only [teamPlayers, List.find?]
      rw [show (decide (m.match_id = e.match_id)) = true by simp [h]]
      exact findTeam_addToTeam_self e.team_id e.player_id m.teams
    · simp only [updateMatchRec, if_neg h]
      simp only [teamPlayers, List.find?] at ih ⊢
      rw [show (decide (m.match_id = e.match_id)) = false by simp [h]]
      exact ih

theorem mem_teamPlayers_updateMatchRec {e : Event} {mid tm p : String} :
    ∀ ms, p ∈ teamPlayers (updateMatchRec e ms) mid tm →
      p ∈ teamPlayers ms mid tm ∨ p = e.player_id := by
  intro ms
  induction ms with
  | nil =>
    intro hp
    simp only [updateMatchRec, teamPlayers, List.find?] at hp
    by_cases hmid : e.match_id = mid
    · rw [show (decide (e.match_id = mid)) = true by simp [hmid]] at hp
      simp only [findTeam, List.find?] at hp
      by_cases htm : e.team_id = tm
      · rw [show (decide (e.team_id = tm)) = true by simp [htm]] at hp
        simp at hp
        exact Or.inr hp
      · rw [show (decide (e.team_id = tm)) = false by simp [htm]] at hp
        simp at hp
    · rw [show (decide (e.match_id = mid)) = false by simp [hmid]] at hp
      simp at hp
  | cons m ms ih =>
    intro hp
    by_cases h : m.match_id = e.match_id
    · rw [show updateMatchRec e (m :: ms) =
          { m with phase := e.phase,
                   teams := addToTeam e.team_id e.player_id m.teams } :: ms by
        simp [updateMatchRec, h]] at hp
      by_cases hmid : m.match_id = mid
      · simp only [teamPlayers, List.find?] at hp ⊢
        rw [show (decide (m.match_id = mid)) = true by simp [hmid]] at hp ⊢
        dsimp only at hp
        by_cases htm : tm = e.team_id
        · rw [htm] at hp ⊢
          rw [findTeam_addToTeam_self] at hp
          rcases mem_insertNew hp with hold | hnew
          · exact Or.inl hold
          · exact Or.inr hnew
        · rw [findTeam_addToTeam_other e.player_id htm] at hp
          exact Or.inl hp
      · simp only [teamPlayers, List.find?] at hp ⊢
        rw [show (decide (m.match_id = mid)) = false by simp [hmid]] at hp ⊢
        exact Or.inl hp
    · rw [show updateMatchRec e (m :: ms) = m :: updateMatchRec e ms by
        simp [updateMatchRec, h]] at hp
      by_cases hmid : m.match_id = mid
      · simp only [teamPlayers, List.find?] at hp ⊢
        rw [show (decide (m.match_id = mid)) = true by simp [hmid]] at hp ⊢
        exact Or.inl hp
      · simp only [teamPlayers, List.find?] at hp ⊢
        rw [show (decide (m.match_id = mid)) = false by simp [hmid]] at hp ⊢
        exact ih hp

theorem mem_teamPlayers_updateMatchRec_self (e : Event) (ms : List MatchRecord) :
    e.player_id ∈ teamPlayers (updateMatchRec e ms) e.match_id e.team_id := by
  rw [teamPlayers_updateMatchRec_self]
  exact insertNew_self _ _

/-! ## Theorems: C2, no orphan index -/

/-- C2: in every reachable state a MatchRoomIndex entry for a key exists
iff a corresponding non-torn-down RoomRecord exists, and every single
step preserves the key-for-key index/room alignment. -/
theorem no_orphan_index :
    (∀ (link : String → Option String) (acts : List Act) (mid tm : String),
      ((run link acts).index.find? (fun p => p.1 = (mid, tm))).isSome ↔
      ((run link acts).rooms.find? (fun r => roomKey r = (mid, tm))).isSome) ∧
    (∀ (link : String → Option String) (a : Act) (s : OrchState),
      indexKeys s = roomKeys s →
      indexKeys (step link s a) = roomKeys (step link s a)) := by
  constructor
  · intro link acts mid tm
    have h : indexKeys (run link acts) = roomKeys (run link acts) := (inv_run link acts).1
    rw [List.find?_isSome, List.find?_isSome]
    constructor
    · rintro ⟨p, hp, hkey⟩
      have hmem : (mid, tm) ∈ roomKeys (run link acts) := by
        rw [← h]
        exact List.mem_map.mpr ⟨p, hp, by simpa using hkey⟩
      obtain ⟨r, hr, hrk⟩ := List.mem_map.mp hmem
      exact ⟨r, hr, by simp [hrk]⟩
    · rintro ⟨r, hr, hkey⟩
      have hmem : (mid, tm) ∈ indexKeys (run link acts) := by
        rw [h]
        exact List.mem_map.mpr ⟨r, hr, by simpa using hkey⟩
      obtain ⟨p, hp, hpk⟩ := List.mem_map.mp hmem
      exact ⟨p, hp, by simp [hpk]⟩
  · exact fun link a s h => align_idx_step link a s h

/-- Witness for C2's preservation half at a concrete state and action. -/
theorem no_orphan_index_witness :
    indexKeys (step (fun _ => Option.none)
        initState (Act.signal ⟨"A", "M1", Phase.inProgress, "blue"⟩ true)) =
      roomKeys (step (fun _ => Option.none)
        initState (Act.signal ⟨"A", "M1", Phase.inProgress, "blue"⟩ true)) :=
  no_orphan_index.2 (fun _ => Option.none)
    (Act.signal ⟨"A", "M1", Phase.inProgress, "blue"⟩ true) initState rfl

/-! ## Theorems: C5, lock acquisition -/

/-- C5: `acquire` succeeds, installing the caller's token, exactly when
no unexpired lock record with a different holder token exists for the
key; otherwise it fails with LockBusy. -/
theorem acquire_spec (st : List LockRecord) (key : String) (tok lease now : Nat)
    (hnd : (st.map (fun r => r.resource_key)).Nodup) :
    ((∃ r ∈ st, r.resource_key = key ∧ now < r.expiry ∧ r.holder_token ≠ tok) →
      acquire st key tok lease now = .error .lockBusy) ∧
    (¬ (∃ r ∈ st, r.resource_key = key ∧ now < r.expiry ∧ r.holder_token ≠ tok) →
      acquire st key tok lease now = .ok (tok, upsertLock key tok (now + lease) st)) := by
  unfold acquire storeGet
  cases hfind : st.find? (fun r => r.resource_key = key) with
  | none =>
    constructor
    · rintro ⟨r, hr, hkey, -, -⟩
      have := List.find?_eq_none.mp hfind r hr
      simp [hkey] at this
    · intro _
      rfl
  | some r =>
    have hkey : r.resource_key = key := by simpa using List.find?_some hfind
    have hmem : r ∈ st := List.mem_of_find?_eq_some hfind
    dsimp only
    by_cases hexp : now < r.expiry
    · rw [if_pos hexp]
      dsimp only
      by_cases htok : r.holder_token = tok
      · rw [if_neg (by simp [htok])]
        constructor
        · rintro ⟨r', hr', hkey', -, htok'⟩
          exfalso
          have hrr : r' = r :=
            List.inj_on_of_nodup_map hnd hr' hmem (by rw [hkey', hkey])
          rw [hrr, htok] at htok'
          exact htok' rfl
        · intro _
          rfl
      · rw [if_pos (by simp [htok])]
        constructor
        · intro _
          rfl
        · intro hnex
          exact absurd ⟨r, hmem, hkey, hexp, htok⟩ hnex
    · rw [if_neg hexp]
      dsimp only
      constructor
      · rintro ⟨r', hr', hkey', hexp', -⟩
        exfalso
        have hrr : r' = r :=
          List.inj_on_of_nodup_map hnd hr' hmem (by rw [hkey', hkey])
        rw [hrr] at hexp'
        exact hexp hexp'
      · intro _
        rfl

/-- Witness for C5: a busy acquisition against a live foreign lease, a
successful one after the lease expired. -/
theorem acquire_spec_witness :
    acquire [⟨"lock:M1", 1, 10⟩] "lock:M1" 2 30 5 = .error .lockBusy ∧
    acquire [⟨"lock:M1", 1, 10⟩] "lock:M1" 2 30 20 =
      .ok (2, upsertLock "lock:M1" 2 50 [⟨"lock:M1", 1, 10⟩]) :=
  ⟨(acquire_spec [⟨"lock:M1", 1, 10⟩] "lock:M1" 2 30 5 (by decide)).1 (by decide),
   (acquire_spec [⟨"lock:M1", 1, 10⟩] "lock:M1" 2 30 20 (by decide)).2 (by decide)⟩

/-! ## Theorems: C3, teardown convergence -/

theorem sweep_kills (due ok : String → String → Bool) (mid tm : String)
    (hd : due mid tm = true) (ho : ok mid tm = true) (s : OrchState) :
    ((sweepState due ok s).rooms.filter fun r => roomKey r = (mid, tm)) = [] ∧
    ((sweepState due ok s).index.filter fun p => p.1 = (mid, tm)) = [] ∧
    ((sweepState due ok s).ext.filter fun c => c.2 = (mid, tm)) = [] := by
  unfold sweepState
  dsimp only
  refine ⟨?_, ?_, ?_⟩
  · rw [List.filter_filter, List.filter_eq_nil_iff]
    intro x hx
    by_cases hk : roomKey x = (mid, tm)
    · simp [hk, hd, ho]
    · simp [hk]
  · rw [List.filter_filter, List.filter_eq_nil_iff]
    intro x hx
    by_cases hk : x.1 = (mid, tm)
    · simp [hk, hd, ho]
    · simp [hk]
  · rw [List.filter_filter, List.filter_eq_nil_iff]
    intro x hx
    by_cases hk : x.2 = (mid, tm)
    · simp [hk, hd, ho]
    · simp [hk]

/-- C3: on an end signal whose external `deleteRoom` fails, the
RoomRecord, index entry and external room are all left in place; and
once a later sweep pass finds the room due and its delete succeeds,
no RoomRecord, index entry or external room remains for that
(match, team), whatever happened in between. -/
theorem teardown_retry :
    (∀ (link : String → Option String) (e : Event) (s : OrchState), e.phase = Phase.ended →
      (handleSignal link e false s).rooms = s.rooms ∧
      (handleSignal link e false s).index = s.index ∧
      (handleSignal link e false s).ext = s.ext) ∧
    (∀ (link : String → Option String) (pre post : List Act) (e : Event)
        (due ok : String → String → Bool),
      e.phase = Phase.ended →
      due e.match_id e.team_id = true → ok e.match_id e.team_id = true →
      ((run link (pre ++ [Act.signal e false] ++ post ++ [Act.sweep due ok])).rooms.filter
          fun r => roomKey r = (e.match_id, e.team_id)) = [] ∧
      ((run link (pre ++ [Act.signal e false] ++ post ++ [Act.sweep due ok])).index.filter
          fun p => p.1 = (e.match_id, e.team_id)) = [] ∧
      ((run link (pre ++ [Act.signal e false] ++ post ++ [Act.sweep due ok])).ext.filter
          fun c => c.2 = (e.match_id, e.team_id)) = []) := by
  constructor
  · intro link e s hph
    unfold handleSignal
    rw [hph]
    dsimp only
    unfold teardown
    cases lookupIndex
        { s with sessions := updateSession link e s.sessions,
                 matchRecords := updateMatchRec e s.matchRecords } e.match_id e.team_id <;>
      dsimp only <;> exact ⟨rfl, rfl, rfl⟩
  · intro link pre post e due ok hph hd ho
    have hrw : run link (pre ++ [Act.signal e false] ++ post ++ [Act.sweep due ok]) =
        sweepState due ok
          ((pre ++ [Act.signal e false] ++ post).foldl (step link) initState) := by
      unfold run
      rw [List.foldl_append]
      rfl
    rw [hrw]
    exact sweep_kills due ok e.match_id e.team_id hd ho _

/-- Witness for C3, Scenario D: the room for match M4 survives the
failed end-signal delete and is gone after the successful sweep retry. -/
theorem teardown_retry_witness :
    ((run (fun p => if p = "D" then some "disc-D" else Option.none)
        ([Act.signal ⟨"D", "M4", Phase.inProgress, "blue"⟩ true] ++
          [Act.signal ⟨"D", "M4", Phase.ended, "blue"⟩ false] ++ [] ++
          [Act.sweep (fun _ _ => true) (fun _ _ => true)])).rooms.filter
        fun r => roomKey r = ("M4", "blue")) = [] :=
  (teardown_retry.2 (fun p => if p = "D" then some "disc-D" else Option.none)
    [Act.signal ⟨"D", "M4", Phase.inProgress, "blue"⟩ true] []
    ⟨"D", "M4", Phase.ended, "blue"⟩ (fun _ _ => true) (fun _ _ => true)
    rfl rfl rfl).1

/-! ## Theorems: C4, unlinked-player exclusion -/

theorem unlinked_foldl (link : String → Option String) :
    ∀ (acts : List Act) (s : OrchState),
      (∀ a ∈ acts, ∀ (e : Event) (ok : Bool), a = Act.signal e ok →
        link e.player_id = Option.none) →
      s.rooms = [] → s.index = [] → s.created = 0 →
      (∀ mid tm q, q ∈ teamPlayers s.matchRecords mid tm → link q = Option.none) →
      (acts.foldl (step link) s).rooms = [] ∧ (acts.foldl (step link) s).created = 0 := by
  intro acts
  induction acts with
  | nil =>
    intro s _ hr _ hc _
    exact ⟨hr, hc⟩
  | cons a as ih =>
    intro s hacts hr hi hc htm
    have hacts' : ∀ a ∈ as, ∀ (e : Event) (ok : Bool), a = Act.signal e ok →
        link e.player_id = Option.none :=
      fun a ha e ok h => hacts a (List.mem_cons_of_mem _ ha) e ok h
    cases a with
    | sweep due ok =>
      rw [List.foldl_cons]
      refine ih (sweepState due ok s) hacts' ?_ ?_ ?_ ?_
      · show s.rooms.filter _ = []
        rw [hr]
        rfl
      · show s.index.filter _ = []
        rw [hi]
        rfl
      · exact hc
      · exact htm
    | signal e ok =>
      have hlink : link e.player_id = Option.none :=
        hacts _ (List.mem_cons_self _ _) e ok rfl
      have htm' : ∀ mid tm q, q ∈ teamPlayers (updateMatchRec e s.matchRecords) mid tm →
          link q = Option.none := by
        intro mid tm q hq
        rcases mem_teamPlayers_updateMatchRec s.matchRecords hq with hold | hnew
        · exact htm mid tm q hold
        · rw [hnew]
          exact hlink
      have hlk : ∀ mid tm, lookupIndex
          { s with sessions := updateSession link e s.sessions,
                   matchRecords := updateMatchRec e s.matchRecords } mid tm = Option.none := by
        intro mid tm
        unfold lookupIndex
        dsimp only
        rw [hi]
        rfl
      have hstep : step link s (Act.signal e ok) =
          { s with sessions := updateSession link e s.sessions,
                   matchRecords := updateMatchRec e s.matchRecords } := by
        show handleSignal link e ok s = _
        unfold handleSignal
        cases e.phase <;> dsimp only
        case inProgress =>
          unfold roomPath
          rw [hlk]
          dsimp only
          have hany : (teamPlayers (updateMatchRec e s.matchRecords)
              e.match_id e.team_id).any (fun p => (link p).isSome) = false :=
            List.any_eq_false.mpr fun x hx => by
              rw [htm' _ _ x hx]
              simp
          rw [hany]
          simp
        case ended =>
          unfold teardown
          rw [hlk]
      rw [List.foldl_cons, hstep]
      exact ih _ hacts' hr hi hc htm'

/-- C4: a player whose identity resolves to NotLinked never appears in
any room's member_set in any reachable state; and when every signal of a
trace comes from unlinked players, no room is ever created at all (the
unlinked players do not count toward the creation trigger). -/
theorem unlinked_exclusion :
    (∀ (link : String → Option String) (acts : List Act),
      ∀ r ∈ (run link acts).rooms, ∀ p ∈ r.member_set, (link p).isSome = true) ∧
    (∀ (link : String → Option String) (acts : List Act),
      (∀ a ∈ acts, ∀ (e : Event) (ok : Bool), a = Act.signal e ok →
        link e.player_id = Option.none) →
      (run link acts).rooms = [] ∧ (run link acts).created = 0) := by
  constructor
  · intro link acts
    exact (inv_run link acts).2.2.2.1
  · intro link acts hacts
    refine unlinked_foldl link acts initState hacts rfl rfl rfl ?_
    intro mid tm q hq
    exact absurd hq (by simp [teamPlayers, initState, List.find?])

/-- Witness for C4, Scenario B first half: the unlinked player C's
`InProgress` signal creates no room. -/
theorem unlinked_exclusion_witness :
    (run (fun _ => Option.none)
      [Act.signal ⟨"C", "M2", Phase.inProgress, "red"⟩ true]).rooms = [] ∧
    (run (fun _ => Option.none)
      [Act.signal ⟨"C", "M2", Phase.inProgress, "red"⟩ true]).created = 0 :=
  unlinked_exclusion.2 (fun _ => Option.none)
    [Act.signal ⟨"C", "M2", Phase.inProgress, "red"⟩ true]
    (fun _ _ _ _ _ => rfl)

/-! ## Theorems: C6, idempotent event handling -/

theorem updateSession_idem (link : String → Option String) (e : Event) :
    ∀ ss, updateSession link e (updateSession link e ss) = updateSession link e ss := by
  intro ss
  induction ss with
  | nil => simp [updateSession]
  | cons p ps ih =>
    by_cases h : p.player_id = e.player_id
    · simp [updateSession, h]
    · simp [updateSession, h, ih]

theorem addToTeam_idem (tm p : String) :
    ∀ tps, addToTeam tm p (addToTeam tm p tps) = addToTeam tm p tps := by
  intro tps
  induction tps with
  | nil => simp [addToTeam, insertNew]
  | cons tp tps ih =>
    by_cases h : tp.1 = tm
    · simp [addToTeam, h, insertNew_idem]
    · simp [addToTeam, h, ih]

theorem updateMatchRec_idem (e : Event) :
    ∀ ms, updateMatchRec e (updateMatchRec e ms) = updateMatchRec e ms := by
  intro ms
  induction ms with
  | nil => simp [updateMatchRec, addToTeam, insertNew]
  | cons m ms ih =>
    by_cases h : m.match_id = e.match_id
    · simp [updateMatchRec, h, addToTeam_idem]
    · simp [updateMatchRec, h, ih]

theorem map_idem {α : Type} (f : α → α) (hf : ∀ x, f (f x) = f x) :
    ∀ l : List α, (l.map f).map f = l.map f := by
  intro l
  induction l with
  | nil => rfl
  | cons a as ih => simp only [List.map_cons, hf, ih]

theorem addMember_idem (rid : Nat) (p : String) (s : OrchState) :
    addMember rid p (addMember rid p s) = addMember rid p s := by
  unfold addMember
  refine congrArg (fun l => { s with rooms := l }) (map_idem _ ?_ s.rooms)
  intro r
  by_cases h : r.room_id = rid
  · simp [h, insertNew_idem]
  · simp [h]

theorem set_fields_eq (X : OrchState) (a : List PlayerSession) (b : List MatchRecord)
    (ha : X.sessions = a) (hb : X.matchRecords = b) :
    { X with sessions := a, matchRecords := b } = X := by
  cases X
  cases ha
  cases hb
  rfl

theorem roomPath_idem (link : String → Option String) (e : Event) (s : OrchState)
    (hfresh : ∀ r ∈ s.rooms, r.room_id < s.nextRef)
    (hp : e.player_id ∈ teamPlayers s.matchRecords e.match_id e.team_id) :
    roomPath link e (roomPath link e s) = roomPath link e s := by
  cases hidx : lookupIndex s e.match_id e.team_id with
  | some rid =>
    have h1 : roomPath link e s =
        if (link e.player_id).isSome then addMember rid e.player_id s else s := by
      unfold roomPath
      rw [hidx]
    cases hl : (link e.player_id).isSome with
    | false =>
      have h2 : roomPath link e s = s := by
        rw [h1, hl]
        rfl
      rw [h2, h2]
    | true =>
      have h2 : roomPath link e s = addMember rid e.player_id s := by
        rw [h1, hl]
        rfl
      rw [h2]
      have hlk : lookupIndex (addMember rid e.player_id s) e.match_id e.team_id = some rid :=
        hidx
      unfold roomPath
      rw [hlk]
      dsimp only
      rw [hl]
      show addMember rid e.player_id (addMember rid e.player_id s) = addMember rid e.player_id s
      exact addMember_idem rid e.player_id s
  | none =>
    cases htr : (teamPlayers s.matchRecords e.match_id e.team_id).any
        (fun q => (link q).isSome) with
    | false =>
      have h2 : roomPath link e s = s := by
        unfold roomPath
        rw [hidx]
        dsimp only
        rw [htr]
        rfl
      rw [h2, h2]
    | true =>
      have h2 : roomPath link e s = createTeamRoom link e.match_id e.team_id s := by
        unfold roomPath
        rw [hidx]
        dsimp only
        rw [htr]
        rfl
      rw [h2]
      have hfind : s.index.find? (fun q => q.1 = (e.match_id, e.team_id)) = none := by
        unfold lookupIndex at hidx
        cases hf : s.index.find? (fun q => q.1 = (e.match_id, e.team_id)) with
        | none => rfl
        | some q =>
          rw [hf] at hidx
          simp at hidx
      have hlk2 : lookupIndex (createTeamRoom link e.match_id e.team_id s)
          e.match_id e.team_id = some s.nextRef := by
        unfold lookupIndex createTeamRoom
        dsimp only
        rw [find?_append_none _ _ _ hfind]
        simp [List.find?]
      unfold roomPath
      rw [hlk2]
      dsimp only
      cases hl : (link e.player_id).isSome with
      | false => rfl
      | true =>
        show addMember s.nextRef e.player_id (createTeamRoom link e.match_id e.team_id s) =
          createTeamRoom link e.match_id e.team_id s
        unfold addMember createTeamRoom
        dsimp only
        congr 1
        apply map_eq_self
        intro r hr
        rcases List.mem_append.mp hr with hold | hnew
        · have hlt := hfresh r hold
          rw [if_neg (by omega)]
        · have hr' : r = ⟨s.nextRef, e.match_id, e.team_id, s.nextRef,
              (teamPlayers s.matchRecords e.match_id e.team_id).filter
                fun q => (link q).isSome⟩ := by
            simpa using hnew
          rw [hr']
          rw [if_pos rfl]
          have hin : e.player_id ∈ (teamPlayers s.matchRecords e.match_id e.team_id).filter
              (fun q => (link q).isSome) :=
            List.mem_filter.mpr ⟨hp, hl⟩
          show ({ room_id := s.nextRef, match_id := e.match_id, team_id := e.team_id,
                  external_channel_ref := s.nextRef,
                  member_set := insertNew e.player_id
                    ((teamPlayers s.matchRecords e.match_id e.team_id).filter
                      fun q => (link q).isSome) } : RoomRecord) = _
          unfold insertNew
          rw [if_pos hin]

theorem teardown_idem (mid tm : String) (ok : Bool) (s : OrchState) :
    teardown mid tm ok (teardown mid tm ok s) = teardown mid tm ok s := by
  cases hidx : lookupIndex s mid tm with
  | none =>
    have h1 : teardown mid tm ok s = s := by
      unfold teardown
      rw [hidx]
    rw [h1, h1]
  | some rid =>
    cases ok with
    | false =>
      have h1 : teardown mid tm false s = s := by
        unfold teardown
        rw [hidx]
        rfl
      rw [h1, h1]
    | true =>
      have h1 : teardown mid tm true s =
          { s with
            rooms := s.rooms.filter fun r => !(roomKey r = (mid, tm) : Bool),
            index := s.index.filter fun p => !(p.1 = (mid, tm) : Bool),
            ext := s.ext.filter fun c => !(c.2 = (mid, tm) : Bool) } := by
        unfold teardown
        rw [hidx]
        rfl
      rw [h1]
      have hfind2 : (s.index.filter fun p => !(p.1 = (mid, tm) : Bool)).find?
          (fun p => p.1 = (mid, tm)) = none := by
        rw [List.find?_eq_none]
        intro p hpf
        have := (List.mem_filter.mp hpf).2
        simp only [Bool.not_eq_true'] at this
        simp [this]
      have hlk2 : lookupIndex
          { s with
            rooms := s.rooms.filter fun r => !(roomKey r = (mid, tm) : Bool),
            index := s.index.filter fun p => !(p.1 = (mid, tm) : Bool),
            ext := s.ext.filter fun c => !(c.2 = (mid, tm) : Bool) } mid tm = none := by
        unfold lookupIndex
        dsimp only
        rw [hfind2]
      unfold teardown
      rw [hlk2]

theorem handleSignal_idem (link : String → Option String) (e : Event) (ok : Bool)
    (s : OrchState) (hfresh : ∀ r ∈ s.rooms, r.room_id < s.nextRef) :
    handleSignal link e ok (handleSignal link e ok s) = handleSignal link e ok s := by
  cases hph : e.phase with
  | inProgress =>
    have hF : ∀ t : OrchState, handleSignal link e ok t =
        roomPath link e { t with sessions := updateSession link e t.sessions,
                                 matchRecords := updateMatchRec e t.matchRecords } := by
      intro t
      unfold handleSignal
      rw [hph]
    simp only [hF]
    rw [roomPath_sessions, roomPath_matchRecords]
    dsimp only
    rw [updateSession_idem, updateMatchRec_idem]
    have hrec : { roomPath link e
          { s with sessions := updateSession link e s.sessions,
                   matchRecords := updateMatchRec e s.matchRecords } with
        sessions := updateSession link e s.sessions,
        matchRecords := updateMatchRec e s.matchRecords } =
        roomPath link e
          { s with sessions := updateSession link e s.sessions,
                   matchRecords := updateMatchRec e s.matchRecords } :=
      set_fields_eq _ _ _ (roomPath_sessions link e _) (roomPath_matchRecords link e _)
    rw [hrec]
    exact roomPath_idem link e _ hfresh (mem_teamPlayers_updateMatchRec_self e s.matchRecords)
  | ended =>
    have hF : ∀ t : OrchState, handleSignal link e ok t =
        teardown e.match_id e.team_id ok
          { t with sessions := updateSession link e t.sessions,
                   matchRecords := updateMatchRec e t.matchRecords } := by
      intro t
      unfold handleSignal
      rw [hph]
    simp only [hF]
    rw [teardown_sessions, teardown_matchRecords]
    dsimp only
    rw [updateSession_idem, updateMatchRec_idem]
    have hrec : { teardown e.match_id e.team_id ok
          { s with sessions := updateSession link e s.sessions,
                   matchRecords := updateMatchRec e s.matchRecords } with
        sessions := updateSession link e s.sessions,
        matchRecords := updateMatchRec e s.matchRecords } =
        teardown e.match_id e.team_id ok
          { s with sessions := updateSession link e s.sessions,
                   matchRecords := updateMatchRec e s.matchRecords } :=
      set_fields_eq _ _ _ (teardown_sessions _ _ ok _) (teardown_matchRecords _ _ ok _)
    rw [hrec]
    exact teardown_idem e.match_id e.team_id ok _
  | noPhase =>
    have hF : ∀ t : OrchState, handleSignal link e ok t =
        { t with sessions := updateSession link e t.sessions,
                 matchRecords := updateMatchRec e t.matchRecords } := by
      intro t
      unfold handleSignal
      rw [hph]
    simp only [hF]
    rw [updateSession_idem, updateMatchRec_idem]
  | champSelect =>
    have hF : ∀ t : OrchState, handleSignal link e ok t =
        { t with sessions := updateSession link e t.sessions,
                 matchRecords := updateMatchRec e t.matchRecords } := by
      intro t
      unfold handleSignal
      rw [hph]
    simp only [hF]
    rw [updateSession_idem, updateMatchRec_idem]
  | loading =>
    have hF : ∀ t : OrchState, handleSignal link e ok t =
        { t with sessions := updateSession link e t.sessions,
                 matchRecords := updateMatchRec e t.matchRecords } := by
      intro t
      unfold handleSignal
      rw [hph]
    simp only [hF]
    rw [updateSession_idem, updateMatchRec_idem]

/-- C6: handling a phase-signal event twice in a row from any reachable
state leaves the same state as handling it once (repeated identical
events are no-ops). -/
theorem repeated_signal_noop (link : String → Option String) (acts : List Act)
    (e : Event) (ok : Bool) :
    handleSignal link e ok (handleSignal link e ok (run link acts)) =
      handleSignal link e ok (run link acts) :=
  handleSignal_idem link e ok (run link acts) (inv_run link acts).2.2.2.2

/-! ## Theorems: C1, idempotent room creation -/

theorem c1_stepA_linked (link : String → Option String) (e : Event) (s : OrchState)
    (hph : e.phase = Phase.inProgress)
    (hA : Astate link e.match_id e.team_id s)
    (hl : (link e.player_id).isSome = true) :
    Bstate e.match_id e.team_id (handleSignal link e true s) := by
  obtain ⟨hr, hi, hc, htm⟩ := hA
  unfold handleSignal
  rw [hph]
  dsimp only
  unfold roomPath
  have hlk : lookupIndex
      { s with sessions := updateSession link e s.sessions,
               matchRecords := updateMatchRec e s.matchRecords } e.match_id e.team_id =
      Option.none := by
    unfold lookupIndex
    dsimp only
    rw [hi]
    rfl
  rw [hlk]
  dsimp only
  have hany : (teamPlayers (updateMatchRec e s.matchRecords) e.match_id e.team_id).any
      (fun q => (link q).isSome) = true := by
    refine List.any_eq_true.mpr ⟨e.player_id, ?_, hl⟩
    rw [teamPlayers_updateMatchRec_self]
    exact insertNew_self _ _
  rw [hany]
  show Bstate e.match_id e.team_id
    (createTeamRoom link e.match_id e.team_id
      { s with sessions := updateSession link e s.sessions,
               matchRecords := updateMatchRec e s.matchRecords })
  unfold Bstate createTeamRoom
  dsimp only
  refine ⟨by rw [hc],
    ⟨⟨s.nextRef, e.match_id, e.team_id, s.nextRef,
      (teamPlayers (updateMatchRec e s.matchRecords) e.match_id e.team_id).filter
        fun p => (link p).isSome⟩, ?_, rfl⟩,
    s.nextRef, ?_⟩
  · rw [hr]
    rfl
  · rw [hi]
    rfl

theorem c1_stepA_unlinked (link : String → Option String) (e : Event) (s : OrchState)
    (hph : e.phase = Phase.inProgress)
    (hA : Astate link e.match_id e.team_id s)
    (hl : (link e.player_id).isSome = false) :
    Astate link e.match_id e.team_id (handleSignal link e true s) := by
  obtain ⟨hr, hi, hc, htm⟩ := hA
  unfold handleSignal
  rw [hph]
  dsimp only
  unfold roomPath
  have hlk : lookupIndex
      { s with sessions := updateSession link e s.sessions,
               matchRecords := updateMatchRec e s.matchRecords } e.match_id e.team_id =
      Option.none := by
    unfold lookupIndex
    dsimp only
    rw [hi]
    rfl
  rw [hlk]
  dsimp only
  have htm' : ∀ q ∈ teamPlayers (updateMatchRec e s.matchRecords) e.match_id e.team_id,
      (link q).isSome = false := by
    intro q hq
    rw [teamPlayers_updateMatchRec_self] at hq
    rcases mem_insertNew hq with hold | hnew
    · exact htm q hold
    · rw [hnew]
      exact hl
  have hany : (teamPlayers (updateMatchRec e s.matchRecords) e.match_id e.team_id).any
      (fun q => (link q).isSome) = false := by
    refine List.any_eq_false.mpr ?_
    intro q hq
    simp [htm' q hq]
  rw [hany]
  show Astate link e.match_id e.team_id
    { s with sessions := updateSession link e s.sessions,
             matchRecords := updateMatchRec e s.matchRecords }
  exact ⟨hr, hi, hc, htm'⟩

theorem c1_stepB (link : String → Option String) (e : Event) (s : OrchState)
    (hph : e.phase = Phase.inProgress)
    (hB : Bstate e.match_id e.team_id s) :
    Bstate e.match_id e.team_id (handleSignal link e true s) := by
  obtain ⟨hc, ⟨r, hr, hrk⟩, rid, hi⟩ := hB
  unfold handleSignal
  rw [hph]
  dsimp only
  unfold roomPath
  have hlk : lookupIndex
      { s with sessions := updateSession link e s.sessions,
               matchRecords := updateMatchRec e s.matchRecords } e.match_id e.team_id =
      some rid := by
    unfold lookupIndex
    dsimp only
    rw [hi]
    simp [List.find?]
  rw [hlk]
  dsimp only
  cases hl : (link e.player_id).isSome with
  | false =>
    show Bstate e.match_id e.team_id
      { s with sessions := updateSession link e s.sessions,
               matchRecords := updateMatchRec e s.matchRecords }
    exact ⟨hc, ⟨r, hr, hrk⟩, rid, hi⟩
  | true =>
    show Bstate e.match_id e.team_id
      (addMember rid e.player_id
        { s with sessions := updateSession link e s.sessions,
                 matchRecords := updateMatchRec e s.matchRecords })
    unfold Bstate addMember
    dsimp only
    refine ⟨hc, ⟨?_, ?_, ?_⟩, rid, hi⟩
    · exact if r.room_id = rid then { r with member_set := insertNew e.player_id r.member_set }
        else r
    · rw [hr]
      rfl
    · rw [roomKey_if]
      exact hrk

theorem c1_aux (link : String → Option String) (mid tm : String) :
    ∀ (evs : List Event) (s : OrchState),
      (∀ e ∈ evs, e.match_id = mid ∧ e.team_id = tm ∧ e.phase = Phase.inProgress) →
      (Astate link mid tm s ∨ Bstate mid tm s) →
      Bstate mid tm ((evs.map fun e => Act.signal e true).foldl (step link) s) ∨
        (Astate link mid tm ((evs.map fun e => Act.signal e true).foldl (step link) s) ∧
          Astate link mid tm s ∧
          evs.all (fun e => !(link e.player_id).isSome) = true) := by
  intro evs
  induction evs with
  | nil =>
    intro s _ hAB
    rcases hAB with hA | hB
    · exact Or.inr ⟨hA, hA, rfl⟩
    · exact Or.inl hB
  | cons e rest ih =>
    intro s hevs hAB
    obtain ⟨hm, ht, hph⟩ := hevs e (List.mem_cons_self _ _)
    have hrest : ∀ e' ∈ rest, e'.match_id = mid ∧ e'.team_id = tm ∧
        e'.phase = Phase.inProgress :=
      fun e' he' => hevs e' (List.mem_cons_of_mem _ he')
    subst hm
    subst ht
    rw [List.map_cons, List.foldl_cons]
    rcases hAB with hA | hB
    · cases hl : (link e.player_id).isSome with
      | true =>
        have hB1 : Bstate e.match_id e.team_id (handleSignal link e true s) :=
          c1_stepA_linked link e s hph hA hl
        rcases ih (handleSignal link e true s) hrest (Or.inr hB1) with hBf | ⟨-, hA', -⟩
        · exact Or.inl hBf
        · exfalso
          have h0 := hA'.2.2.1
          have h1 := hB1.1
          omega
      | false =>
        have hA1 : Astate link e.match_id e.team_id (handleSignal link e true s) :=
          c1_stepA_unlinked link e s hph hA hl
        rcases ih (handleSignal link e true s) hrest (Or.inl hA1) with hBf | ⟨hAf, -, hall⟩
        · exact Or.inl hBf
        · refine Or.inr ⟨hAf, hA, ?_⟩
          rw [List.all_cons, hl, hall]
          rfl
    · have hB1 : Bstate e.match_id e.team_id (handleSignal link e true s) :=
        c1_stepB link e s hph hB
      rcases ih (handleSignal link e true s) hrest (Or.inr hB1) with hBf | ⟨-, hA', -⟩
      · exact Or.inl hBf
      · exfalso
        have h0 := hA'.2.2.1
        have h1 := hB1.1
        omega

/-- C1: in every reachable state at most one non-torn-down RoomRecord
exists per (match_id, team_id); and a sequence of `InProgress` signals
for the same (match_id, team_id), at least one of them from a linked
player, creates exactly one external room and leaves exactly one
RoomRecord/index pair. -/
theorem idempotent_room_creation :
    (∀ (link : String → Option String) (acts : List Act) (mid tm : String),
      ((run link acts).rooms.filter fun r => roomKey r = (mid, tm)).length ≤ 1) ∧
    (∀ (link : String → Option String) (mid tm : String) (evs : List Event),
      (∀ e ∈ evs, e.match_id = mid ∧ e.team_id = tm ∧ e.phase = Phase.inProgress) →
      (∃ e ∈ evs, (link e.player_id).isSome = true) →
      (run link (evs.map fun e => Act.signal e true)).created = 1 ∧
      ((run link (evs.map fun e => Act.signal e true)).rooms.filter
          fun r => roomKey r = (mid, tm)).length = 1 ∧
      ((run link (evs.map fun e => Act.signal e true)).index.filter
          fun p => p.1 = (mid, tm)).length = 1) := by
  constructor
  · intro link acts mid tm
    have hnd : (roomKeys (run link acts)).Nodup := (inv_run link acts).2.2.1
    have hmap := map_filter_self roomKey (fun k => decide (k = (mid, tm)))
      (run link acts).rooms
    have hlen : ((run link acts).rooms.filter fun r => decide (roomKey r = (mid, tm))).length
        = ((roomKeys (run link acts)).filter fun k => decide (k = (mid, tm))).length :=
      calc ((run link acts).rooms.filter fun r => decide (roomKey r = (mid, tm))).length
          = (((run link acts).rooms.filter
              fun r => decide (roomKey r = (mid, tm))).map roomKey).length :=
            (List.length_map _ _).symm
        _ = _ := congrArg List.length hmap
    rw [hlen]
    exact filter_key_length_le_one (mid, tm) _ hnd
  · intro link mid tm evs hevs hex
    have hstart : Astate link mid tm initState ∨ Bstate mid tm initState :=
      Or.inl ⟨rfl, rfl, rfl,
        fun q hq => absurd hq (by simp [teamPlayers, initState, List.find?])⟩
    rcases c1_aux link mid tm evs initState hevs hstart with hB | ⟨-, -, hall⟩
    · obtain ⟨hc, ⟨r, hr, hrk⟩, rid, hi⟩ := hB
      unfold run
      refine ⟨hc, ?_, ?_⟩
      · rw [hr]
        simp [List.filter, hrk]
      · rw [hi]
        simp [List.filter]
    · exfalso
      obtain ⟨e, he, hl⟩ := hex
      have hne := List.all_eq_true.mp hall e he
      rw [hl] at hne
      exact absurd hne (by decide)

/-- Witness for C1, Scenario A: two linked teammates signalling
`InProgress` for ("M1", "blue") yield exactly one created room. -/
theorem idempotent_room_creation_witness :
    (run (fun p => if p = "A" ∨ p = "B" then some p else Option.none)
      ([⟨"A", "M1", Phase.inProgress, "blue"⟩,
        ⟨"B", "M1", Phase.inProgress, "blue"⟩].map fun e => Act.signal e true)).created = 1 :=
  (idempotent_room_creation.2 (fun p => if p = "A" ∨ p = "B" then some p else Option.none)
    "M1" "blue"
    [⟨"A", "M1", Phase.inProgress, "blue"⟩, ⟨"B", "M1", Phase.inProgress, "blue"⟩]
    (by decide)
    ⟨⟨"A", "M1", Phase.inProgress, "blue"⟩, by decide, by decide⟩).1

end RiftTalk
